import Mathlib

/-!
Verification development for the asynchronous codec session engine
(`src/native/async_encoder.cpp`, `src/native/async_decoder.cpp`,
`src/native/hw_accel.cpp`, `src/native/encoder.cpp`).

The development shallowly embeds:
* the codec-selector (`HWAccel::selectEncoder`, `HWAccel::getCodecType`,
  the per-family encoder priority tables for the Linux build),
* the `VideoEncoderAsync::Configure` control flow including the
  hardware-open-failure software-fallback path,
* the pixel-format conversion stage of `VideoEncoderAsync::ProcessEncode`
  (lazy sws-context caching and the copy short-circuit),
* the job queue / worker-thread / close / reset / flush protocol as a
  deterministic labelled transition system whose labels are the caller
  calls and the worker's observable program points.

External toolkit primitives (the actual codec, `sws_scale`) are modelled
as parameters; everything owned by the repository is translated from the
source.
-/

namespace WebCodecs

/-! ## Character-list string helpers (structural, kernel-reducible).
`strStarts` models `std::string::find(pat) == 0`, `strContains` models
`std::string::find(pat) != npos`. -/
def charsPre : List Char → List Char → Bool
  | [], _ => true
  | _ :: _, [] => false
  | p :: ps, c :: cs => p == c && charsPre ps cs

def charsContain (s pat : List Char) : Bool :=
  charsPre pat s ||
    (match s with
     | [] => false
     | _ :: cs => charsContain cs pat)

def strStarts (s pat : String) : Bool := charsPre pat.toList s.toList

def strContains (s pat : String) : Bool := charsContain s.toList pat.toList

/-! ## Hardware acceleration model (`hw_accel.h` / `hw_accel.cpp`) -/
/-- Model of `HWAccel::Type`. -/
inductive HWType where
  | hwNone | videotoolbox | nvenc | cuvid | qsv | vaapi | amf | mediafoundation | v4l2m2m
deriving DecidableEq, Repr

/-- Model of `HWAccel::Preference`. -/
inductive HWPref where
  | noPref | preferHW | preferSW
deriving DecidableEq, Repr

/-- The pixel formats this engine mentions (`AVPixelFormat` subset). -/
inductive PixFmt where
  | yuv420p | yuva420p | nv12 | vaapiFmt | rgba | bgra | fmtNone
deriving DecidableEq, Repr

/-- Model of `HWAccel::EncoderMapping` table entry. -/
structure EncEntry where
  name : String
  hwType : HWType
  fmt : PixFmt
deriving DecidableEq, Repr

/-- Model of `h264Encoders` under `__linux__` (hardware first, software last). -/
def h264Encoders : List EncEntry :=
  [⟨"h264_nvenc", .nvenc, .nv12⟩, ⟨"h264_vaapi", .vaapi, .vaapiFmt⟩,
   ⟨"h264_qsv", .qsv, .nv12⟩, ⟨"h264_v4l2m2m", .v4l2m2m, .yuv420p⟩,
   ⟨"libx264", .hwNone, .yuv420p⟩]

/-- Model of `hevcEncoders` under `__linux__`. -/
def hevcEncoders : List EncEntry :=
  [⟨"hevc_nvenc", .nvenc, .nv12⟩, ⟨"hevc_vaapi", .vaapi, .vaapiFmt⟩,
   ⟨"hevc_qsv", .qsv, .nv12⟩, ⟨"libx265", .hwNone, .yuv420p⟩]

/-- Model of `vp8Encoders`. -/
def vp8Encoders : List EncEntry := [⟨"libvpx", .hwNone, .yuv420p⟩]

/-- Model of `vp9Encoders` under `__linux__`. -/
def vp9Encoders : List EncEntry :=
  [⟨"vp9_vaapi", .vaapi, .vaapiFmt⟩, ⟨"vp9_qsv", .qsv, .nv12⟩,
   ⟨"libvpx-vp9", .hwNone, .yuv420p⟩]

/-- Model of `av1Encoders` under `__linux__`. -/
def av1Encoders : List EncEntry :=
  [⟨"av1_nvenc", .nvenc, .nv12⟩, ⟨"av1_vaapi", .vaapi, .vaapiFmt⟩,
   ⟨"av1_qsv", .qsv, .nv12⟩, ⟨"libsvtav1", .hwNone, .yuv420p⟩,
   ⟨"libaom-av1", .hwNone, .yuv420p⟩]

/-- Model of `HWAccel::getCodecType`: normalize a WebCodecs codec string or an
FFmpeg implementation name into a codec family. -/
def getCodecType (c : String) : String :=
  if strStarts c "avc1" || strStarts c "avc3" then "h264"
  else if strStarts c "hvc1" || strStarts c "hev1" then "hevc"
  else if c == "vp8" then "vp8"
  else if strStarts c "vp09" || c == "vp9" then "vp9"
  else if strStarts c "av01" then "av1"
  else if c == "libx264" || c == "h264" || strStarts c "h264_" then "h264"
  else if c == "libx265" || c == "hevc" || strStarts c "hevc_" then "hevc"
  else if c == "libvpx" || strContains c "vp8" then "vp8"
  else if c == "libvpx-vp9" || strContains c "vp9" then "vp9"
  else if c == "libaom-av1" || c == "libsvtav1" || strContains c "av1" then "av1"
  else c

/-- Model of `HWAccel::getEncoderList`. -/
def getEncoderList (t : String) : List EncEntry :=
  if t == "h264" then h264Encoders
  else if t == "hevc" then hevcEncoders
  else if t == "vp8" then vp8Encoders
  else if t == "vp9" then vp9Encoders
  else if t == "av1" then av1Encoders
  else []

/-- The FFmpeg registry boundary: which implementation names
`avcodec_find_encoder_by_name` resolves (`HWAccel::isEncoderAvailable`). -/
structure Registry where
  avail : String → Bool

/-- Model of `HWAccel::EncoderInfo` (the `name`/`codec` pair is collapsed into the
resolved implementation name; `codec = none` models a null `AVCodec*`). -/
structure EncoderInfo where
  codec : Option String
  hwType : HWType
  inputFormat : PixFmt
  requiresHWFrames : Bool
deriving DecidableEq, Repr

/-- Model of `HWAccel::selectEncoder`: with `preferSW`, scan the family list from
the end for an available software entry; otherwise scan in priority
order (skipping hardware entries when software is required) and take the
first available implementation.  `requiresHWFrames` is set exactly for
VAAPI. -/
def selectEncoder (R : Registry) (codecString : String) (pref : HWPref) : EncoderInfo :=
  let base : EncoderInfo := ⟨none, .hwNone, .yuv420p, false⟩
  let encoders := getEncoderList (getCodecType codecString)
  if encoders.isEmpty then base
  else
    let swPick : Option EncEntry :=
      if pref == .preferSW then
        encoders.reverse.find? (fun e => e.hwType == .hwNone && R.avail e.name)
      else none
    match swPick with
    | some e => ⟨some e.name, .hwNone, e.fmt, false⟩
    | none =>
      match encoders.find?
          (fun e => (!(pref == .preferSW) || e.hwType == .hwNone) && R.avail e.name) with
      | some e => ⟨some e.name, e.hwType, e.fmt, e.hwType == .vaapi⟩
      | none => base

/-- Model of `HWAccel::parsePreference`. -/
def parsePreference (s : String) : HWPref :=
  if s == "prefer-hardware" then .preferHW
  else if s == "prefer-software" then .preferSW
  else .noPref

/-- Model of `HWAccel::getHWDeviceType` returns a real device type (Linux build:
VideoToolbox/NVENC/CUVID/QSV/VAAPI map to a device; MediaFoundation,
V4L2M2M and — outside `_WIN32` — AMF fall to the `AV_HWDEVICE_TYPE_NONE`
default). -/
def hwDeviceTypeMapped (t : HWType) : Bool :=
  match t with
  | .videotoolbox | .nvenc | .cuvid | .qsv | .vaapi => true
  | _ => false

/-! ## `VideoEncoderAsync::Configure` model

The environment bundles the registry with the outcomes of the external
toolkit calls `avcodec_open2` (keyed by implementation name — the two
open attempts of one `configure` call always target different names),
`av_hwdevice_ctx_create` and `av_hwframe_ctx_init`.  Allocation of the
codec context itself (`avcodec_alloc_context3`) is assumed to succeed. -/
structure CfgEnv where
  reg : Registry
  openOk : String → Bool
  hwDeviceCreateOk : HWType → Bool
  hwFramesInitOk : Bool
  svcSupported : String → Bool

/-- Model of `HWAccel::createHWDeviceContext`: null unless the type maps to a real
device type and `av_hwdevice_ctx_create` succeeds. -/
def createHWDeviceContext (E : CfgEnv) (t : HWType) : Option HWType :=
  if hwDeviceTypeMapped t && E.hwDeviceCreateOk t then some t else none

/-- Modelled from the spec: `isScalabilityModeSupported` lives in `svc.h`,
which is not under src/; the spec only records that a temporal-scalability
mode option is recognized and that bad configuration values are rejected
synchronously (sections 6 and 7), so which mode strings are supported is
abstracted as an environment predicate. -/
def isScalabilityModeSupported (E : CfgEnv) (m : String) : Bool :=
  E.svcSupported m

/-- The configure-call arguments the modelled control flow reads
(colorSpace/profile/avcFormat/latency options and a *supported*
scalability mode only set encoder private data and are outside the
model; an *unsupported* `scalabilityMode` makes `Configure` throw at
`async_encoder.cpp:366-373`, which the model does follow). -/
structure EncCfg where
  codec : String
  width : Int
  height : Int
  hardwareAcceleration : Option String
  bitrate : Option Int
  bitrateMode : Option String
  framerate : Option Int
  alpha : Option String
  scalabilityMode : Option String
deriving DecidableEq

/-- The hardware preference `Configure` parses from the config. -/
def encCfgPref (cfg : EncCfg) : HWPref :=
  match cfg.hardwareAcceleration with
  | some s => parsePreference s
  | none => .noPref

/-- Whether the config passes the scalability-mode validation at
`async_encoder.cpp:366-373` (vacuously when no mode is requested). -/
def svcModeOk (E : CfgEnv) (cfg : EncCfg) : Bool :=
  match cfg.scalabilityMode with
  | some m => isScalabilityModeSupported E m
  | none => true

/-- The fields of the open codec context (`AVCodecContext`) the modelled
code paths assign.  `hwDeviceAttached`/`hwFramesAttached` record whether
`hw_device_ctx`/`hw_frames_ctx` were set on the context. -/
structure CodecParams where
  name : String
  width : Int
  height : Int
  timeBaseNum : Int
  timeBaseDen : Int
  bitRate : Int
  gopSize : Int
  framerateNum : Int
  maxBFrames : Int
  pixFmt : PixFmt
  hwDeviceAttached : Bool
  hwFramesAttached : Bool
deriving DecidableEq

/-- The session state `Configure` leaves behind: the member fields
`codecCtx_`, `hwDeviceCtx_`, `hwFramesCtx_`, `hwType_`,
`hwInputFormat_`, `configured_`, `running_`, plus the error (if any)
thrown as a JavaScript exception.  `hwFramesCtx = some b` models a
non-null `hwFramesCtx_` buffer whose `av_hwframe_ctx_init` returned
success iff `b`. -/
structure CfgState where
  codecCtx : Option CodecParams
  hwDeviceCtx : Option HWType
  hwFramesCtx : Option Bool
  hwType : HWType
  hwInputFormat : PixFmt
  configured : Bool
  running : Bool
  err : Option String
deriving DecidableEq

/-- Implementation resolution in `Configure` (`async_encoder.cpp:198-213`):
the selector's pick, or a direct `avcodec_find_encoder_by_name` lookup
when the family table yields nothing. -/
def resolvedEnc (E : CfgEnv) (cfg : EncCfg) : Option (String × HWType × PixFmt × Bool) :=
  let encInfo := selectEncoder E.reg cfg.codec (encCfgPref cfg)
  match encInfo.codec with
  | some n => some (n, encInfo.hwType, encInfo.inputFormat, encInfo.requiresHWFrames)
  | none => if E.reg.avail cfg.codec then some (cfg.codec, .hwNone, .yuv420p, false) else none

/-- Model of `VideoEncoderAsync::Configure` (`async_encoder.cpp:176-485`):
select an implementation, populate the codec context, create the
hardware device and frame pool when required; reject an unsupported
`scalabilityMode` (`async_encoder.cpp:366-373`) — a throw that happens
*after* the context and hardware allocations and so returns with
`codecCtx_` (and any created hardware contexts) still set; otherwise
open.  On open failure of a hardware candidate with preference other
than `PreferHardware`, tear the hardware contexts down, re-select with
`PreferSoftware`, rebuild the context with the baseline parameters and
reopen.  On the `PreferHardware` open-failure path the hardware contexts
are left untouched, exactly as in the source. -/
def configureEnc (E : CfgEnv) (cfg : EncCfg) : CfgState :=
  let hwPref := encCfgPref cfg
  match resolvedEnc E cfg with
  | none =>
      { codecCtx := none, hwDeviceCtx := none, hwFramesCtx := none, hwType := .hwNone,
        hwInputFormat := .fmtNone, configured := false, running := false,
        err := some "No suitable encoder found" }
  | some (cname, ht, hfmt, reqFrames) =>
      let bitrate := cfg.bitrate.getD 2000000
      let bmode := cfg.bitrateMode.getD "variable"
      let fps := cfg.framerate.getD 30
      let alphaKeep := match cfg.alpha with | some a => a == "keep" | none => false
      let bitRateField : Int :=
        if bmode == "constant" then bitrate else if bmode == "quantizer" then 0 else bitrate
      let pixFmt :=
        if ht != .hwNone && hfmt != .fmtNone then hfmt
        else if alphaKeep && strContains cname "libvpx" then .yuva420p
        else .yuv420p
      let hwDev := if ht != .hwNone then createHWDeviceContext E ht else none
      let hwFrames : Option Bool :=
        if ht != .hwNone && reqFrames && hwDev.isSome then some E.hwFramesInitOk else none
      let ctx1 : CodecParams :=
        { name := cname, width := cfg.width, height := cfg.height,
          timeBaseNum := 1, timeBaseDen := 1000000,
          bitRate := bitRateField, gopSize := fps, framerateNum := fps, maxBFrames := 0,
          pixFmt := pixFmt,
          hwDeviceAttached := hwDev.isSome,
          hwFramesAttached := hwFrames == some true }
      if !svcModeOk E cfg then
        { codecCtx := some ctx1, hwDeviceCtx := hwDev, hwFramesCtx := hwFrames,
          hwType := ht, hwInputFormat := hfmt, configured := false, running := false,
          err := some "Unsupported scalabilityMode" }
      else if E.openOk cname then
        { codecCtx := some ctx1, hwDeviceCtx := hwDev, hwFramesCtx := hwFrames,
          hwType := ht, hwInputFormat := hfmt, configured := true, running := true,
          err := none }
      else if ht != .hwNone && hwPref != .preferHW then
        let swInfo := selectEncoder E.reg cfg.codec .preferSW
        match swInfo.codec with
        | some swName =>
            let ctx2 : CodecParams :=
              { name := swName, width := cfg.width, height := cfg.height,
                timeBaseNum := 1, timeBaseDen := 1000000,
                bitRate := bitrate, gopSize := fps, framerateNum := fps, maxBFrames := 0,
                pixFmt := .yuv420p, hwDeviceAttached := false, hwFramesAttached := false }
            if E.openOk swName then
              { codecCtx := some ctx2, hwDeviceCtx := none, hwFramesCtx := none,
                hwType := .hwNone, hwInputFormat := swInfo.inputFormat,
                configured := true, running := true, err := none }
            else
              { codecCtx := none, hwDeviceCtx := none, hwFramesCtx := none,
                hwType := .hwNone, hwInputFormat := swInfo.inputFormat,
                configured := false, running := false, err := some "Failed to open codec" }
        | none =>
            { codecCtx := none, hwDeviceCtx := none, hwFramesCtx := none,
              hwType := ht, hwInputFormat := hfmt, configured := false, running := false,
              err := some "Failed to open codec" }
      else
        { codecCtx := none, hwDeviceCtx := hwDev, hwFramesCtx := hwFrames,
          hwType := ht, hwInputFormat := hfmt, configured := false, running := false,
          err := some "Failed to open codec" }

/-- The baseline parameters the software-fallback path reapplies
(`async_encoder.cpp:451-458`): configured dimensions, microsecond time
base, requested bitrate, gop = framerate, no B-frames, `YUV420P`. -/
def baselineParams (cfg : EncCfg) (swName : String) : CodecParams :=
  { name := swName, width := cfg.width, height := cfg.height,
    timeBaseNum := 1, timeBaseDen := 1000000,
    bitRate := cfg.bitrate.getD 2000000,
    gopSize := cfg.framerate.getD 30, framerateNum := cfg.framerate.getD 30,
    maxBFrames := 0, pixFmt := .yuv420p,
    hwDeviceAttached := false, hwFramesAttached := false }

/-- A concrete environment for exercising the fallback path: the NVENC
H.264 hardware encoder and `libx264` are registered, only `libx264`
actually opens. -/
def envFallback : CfgEnv :=
  { reg := ⟨fun s => s == "h264_nvenc" || s == "libx264"⟩,
    openOk := fun s => s == "libx264",
    hwDeviceCreateOk := fun _ => true,
    hwFramesInitOk := true,
    svcSupported := fun _ => true }

/-- A plain H.264 encoder configuration with no hardware preference. -/
def cfgNoPref : EncCfg :=
  { codec := "h264", width := 640, height := 480, hardwareAcceleration := none,
    bitrate := none, bitrateMode := none, framerate := none, alpha := none,
    scalabilityMode := none }

/-- Environment where the hardware candidate is selected and its device
context creation succeeds, but every open fails. -/
def envHWOpenFails : CfgEnv :=
  { reg := ⟨fun s => s == "h264_nvenc" || s == "libx264"⟩,
    openOk := fun _ => false,
    hwDeviceCreateOk := fun _ => true,
    hwFramesInitOk := true,
    svcSupported := fun _ => true }

/-- H.264 configuration explicitly requesting `prefer-hardware`. -/
def cfgPreferHW : EncCfg :=
  { codec := "h264", width := 640, height := 480,
    hardwareAcceleration := some "prefer-hardware",
    bitrate := none, bitrateMode := none, framerate := none, alpha := none,
    scalabilityMode := none }

/-- Environment whose scalability validation rejects every mode string
(opens would succeed, but are never reached on the rejection path). -/
def envSvcReject : CfgEnv :=
  { reg := ⟨fun s => s == "h264_nvenc" || s == "libx264"⟩,
    openOk := fun _ => true,
    hwDeviceCreateOk := fun _ => true,
    hwFramesInitOk := true,
    svcSupported := fun _ => false }

/-- Configuration requesting a scalability mode the environment
rejects. -/
def cfgBadSvc : EncCfg := { cfgNoPref with scalabilityMode := some "L1T3" }

/-! ## Conversion stage of `VideoEncoderAsync::ProcessEncode`
(`async_encoder.cpp:517-588`; the synchronous encoder's
`VideoEncoderNative::Encode` at `encoder.cpp:348-373` has the same
structure).  `sws_scale` itself belongs to the external toolkit and is a
parameter; a `SwsKey` records the arguments `sws_getContext` was called
with when the cached context was created. -/
structure RawFrame where
  fmt : PixFmt
  w : Int
  h : Int
  dat : List Nat
deriving DecidableEq, Repr

/-- The (source, destination) format/size pair a conversion context was
built for. -/
structure SwsKey where
  srcFmt : PixFmt
  srcW : Int
  srcH : Int
  dstFmt : PixFmt
  dstW : Int
  dstH : Int
deriving DecidableEq, Repr

/-- The conversion pair a job with source `src` needs, given the session
target format and configured dimensions. -/
def jobPair (src : RawFrame) (t : PixFmt) (W H : Int) : SwsKey :=
  ⟨src.fmt, src.w, src.h, t, W, H⟩

/-- Target pixel format determination (`async_encoder.cpp:527-540`):
start from the codec's pixel format, lower VAAPI/none to `YUV420P`, and
promote to `YUVA420P` when the configuration keeps alpha, the input
carries alpha and the target would be `YUV420P`. -/
def targetFormatFor (codecPixFmt : PixFmt) (alphaKeep : Bool) (src : RawFrame) : PixFmt :=
  let t := if codecPixFmt == .vaapiFmt || codecPixFmt == .fmtNone then .yuv420p else codecPixFmt
  let inputHasAlpha := src.fmt == .rgba || src.fmt == .bgra || src.fmt == .yuva420p
  if alphaKeep && inputHasAlpha && t == .yuv420p then .yuva420p else t

/-- One conversion pass (`async_encoder.cpp:543-585`): if source format
or size differ from the target, create the sws context only when none is
cached (`if (!swsCtx_)`) — keyed by *this* job's pair — and scale with
whatever context is cached; otherwise `av_frame_copy` the source data
into the target frame. -/
def convertStep (scale : SwsKey → List Nat → List Nat)
    (W H : Int) (codecPixFmt : PixFmt) (alphaKeep : Bool)
    (sws : Option SwsKey) (src : RawFrame) : Option SwsKey × RawFrame :=
  let t := targetFormatFor codecPixFmt alphaKeep src
  if src.fmt != t || src.w != W || src.h != H then
    let k := match sws with
      | none => jobPair src t W H
      | some k0 => k0
    (some k, ⟨t, W, H, scale k src.dat⟩)
  else
    (sws, ⟨t, W, H, src.dat⟩)

/-- A scaling function that records which cached key was used: output
`[1]` for a context keyed to an RGBA source, `[2]` otherwise. -/
def scaleTag : SwsKey → List Nat → List Nat :=
  fun k _ => if k.srcFmt == .rgba then [1] else [2]

/-- First submitted frame: RGBA 100x50. -/
def frameA : RawFrame := ⟨.rgba, 100, 50, [7]⟩

/-- Second submitted frame with a different (src, dst) pair: NV12 64x32. -/
def frameB : RawFrame := ⟨.nv12, 64, 32, [8]⟩

/-! ## Job queue, worker thread and session lifecycle

A deterministic labelled transition system over the session state of
`VideoEncoderAsync` (`async_encoder.cpp`; `VideoDecoderAsync` is
structurally identical).  Labels are the caller-side calls
(`Encode` = `submit`, `Flush`, `Reset`, the two halves of `Close`) and
the worker thread's observable program points in `WorkerThread`
(`async_encoder.cpp:487-515`):

* `wTopGo` / `wTopExit`: the `while (running_)` loop-head check;
* `wWaitDeq`: the wait predicate sees a non-empty queue and the worker
  pops the front job (the `if (jobQueue_.empty()) continue;` line is
  unreachable: the wait predicate plus the break condition leave a
  non-empty queue as the only way past the break);
* `wWaitBreak`: `!running_ && jobQueue_.empty()` stops the loop;
* `wStep`: the dequeued job is processed to completion
  (`ProcessEncode`/`ProcessFlush`) and its results handed to the
  delivery mechanism, which the spec stipulates preserves order
  (`tsfnOutput_` is a single FIFO for both blocking and non-blocking
  pushes).

The codec behind `avcodec_send_frame`/`avcodec_receive_packet` is
external; `CodecModel` abstracts it as a buffer of pending frame ids:
`encodeF buffer id` returns the new buffer and the ids emitted as
packets, `flushF` drains on end-of-stream. -/
inductive Job where
  | enc (id : Nat)
  | flushJob
deriving DecidableEq, Repr

inductive Out where
  | chunk (id : Nat)
  | flushComplete
deriving DecidableEq, Repr

structure CodecModel where
  encodeF : List Nat → Nat → List Nat × List Nat
  flushF : List Nat → List Nat × List Nat

/-- Worker program counter: at the loop-head check, past the condition
variable wait holding the queue lock, processing a dequeued job, or
exited. -/
inductive WPC where
  | atTop | atWait | busy (j : Job) | exited
deriving DecidableEq, Repr

/-- Session state: `queue`/`running`/`configured`/`codecOpen` mirror
`jobQueue_`, `running_`, `configured_` and the non-nullness of
`codecCtx_`; `delivered` is the ordered sequence handed to the output
callback (with the flush-completion signal inlined at its position);
`processed`/`submitted` are ghost histories of completed and submitted
jobs used to state ordering. -/
structure Sess where
  queue : List Job
  running : Bool
  configured : Bool
  closedFlag : Bool
  codecOpen : Bool
  codecBuf : List Nat
  delivered : List Out
  flushPending : Bool
  wpc : WPC
  processed : List Job
  submitted : List Job
deriving DecidableEq, Repr

inductive Lab where
  | submit (id : Nat)
  | flushCall
  | resetCall
  | stopSignal
  | joinCleanup
  | wTopGo
  | wTopExit
  | wWaitDeq
  | wWaitBreak
  | wStep
deriving DecidableEq, Repr

/-- One transition.  `none` means the label is not enabled in `s`
(e.g. `submit` on an unconfigured session throws synchronously and
changes nothing; the worker cannot pass the loop-head check once
stopped; `joinCleanup` — the part of `Close` after `join()` — can only
run once the worker has exited). -/
def stepF (M : CodecModel) (s : Sess) : Lab → Option Sess
  | .submit id =>
      if s.configured then
        some { s with queue := s.queue ++ [Job.enc id],
                      submitted := s.submitted ++ [Job.enc id] }
      else none
  | .flushCall =>
      if s.configured then
        some { s with queue := s.queue ++ [Job.flushJob],
                      submitted := s.submitted ++ [Job.flushJob],
                      flushPending := true }
      else none
  | .resetCall =>
      some { s with queue := [],
                    codecBuf := if s.codecOpen then [] else s.codecBuf }
  | .stopSignal => some { s with running := false }
  | .joinCleanup =>
      if s.wpc = .exited then
        some { s with queue := [], codecOpen := false,
                      configured := false, closedFlag := true }
      else none
  | .wTopGo =>
      if s.wpc = .atTop ∧ s.running then some { s with wpc := .atWait } else none
  | .wTopExit =>
      if s.wpc = .atTop ∧ ¬s.running then some { s with wpc := .exited } else none
  | .wWaitBreak =>
      if s.wpc = .atWait ∧ ¬s.running ∧ s.queue = [] then
        some { s with wpc := .exited }
      else none
  | .wWaitDeq =>
      match s.queue with
      | [] => none
      | j :: rest =>
          if s.wpc = .atWait then some { s with queue := rest, wpc := .busy j } else none
  | .wStep =>
      match s.wpc with
      | .busy (.enc id) =>
          if s.codecOpen then
            some { s with codecBuf := (M.encodeF s.codecBuf id).1,
                          delivered := s.delivered ++ (M.encodeF s.codecBuf id).2.map Out.chunk,
                          wpc := .atTop, processed := s.processed ++ [Job.enc id] }
          else
            some { s with wpc := .atTop, processed := s.processed ++ [Job.enc id] }
      | .busy .flushJob =>
          if s.codecOpen then
            some { s with codecBuf := (M.flushF s.codecBuf).1,
                          delivered := s.delivered ++ (M.flushF s.codecBuf).2.map Out.chunk
                            ++ [Out.flushComplete],
                          wpc := .atTop, processed := s.processed ++ [Job.flushJob],
                          flushPending := false }
          else
            some { s with wpc := .atTop, processed := s.processed ++ [Job.flushJob],
                          flushPending := false }
      | _ => none

/-- Run a list of labels. -/
def runL (M : CodecModel) : Sess → List Lab → Option Sess
  | s, [] => some s
  | s, l :: ls =>
      match stepF M s l with
      | some t => runL M t ls
      | none => none

/-- The state right after a successful `Configure`: worker started at
the loop head, everything else empty. -/
def initSess : Sess :=
  { queue := [], running := true, configured := true, closedFlag := false,
    codecOpen := true, codecBuf := [], delivered := [], flushPending := false,
    wpc := .atTop, processed := [], submitted := [] }

/-- The job the worker currently owns, as a list. -/
def busyList : WPC → List Job
  | .busy j => [j]
  | _ => []

/-- Effect of one job on the abstract codec: outputs and new buffer. -/
def stepJob (M : CodecModel) (b : List Nat) : Job → List Nat × List Out
  | .enc id => ((M.encodeF b id).1, (M.encodeF b id).2.map Out.chunk)
  | .flushJob => ((M.flushF b).1, (M.flushF b).2.map Out.chunk ++ [Out.flushComplete])

/-- Folding a job sequence through the codec from buffer `b`: final
buffer and concatenated ordered outputs. -/
def runJobs (M : CodecModel) (b : List Nat) : List Job → List Nat × List Out
  | [] => (b, [])
  | j :: rest =>
      let e := stepJob M b j
      let r := runJobs M e.1 rest
      (r.1, e.2 ++ r.2)

/-- A lookahead-`L` codec: buffers up to `L` frames, emits the overflow
in FIFO order, drains everything on flush.  A concrete representative of
the FFmpeg send/receive discipline used for witnesses. -/
def lkModel (L : Nat) : CodecModel :=
  { encodeF := fun b id =>
      let q := b ++ [id]
      if q.length ≤ L then (q, []) else (q.drop (q.length - L), q.take (q.length - L)),
    flushF := fun b => ([], b) }

/-- The labels the worker thread itself can produce. -/
def workerLab : Lab → Bool
  | .wTopGo | .wTopExit | .wWaitDeq | .wWaitBreak | .wStep => true
  | _ => false

/-- Model of `VideoEncoderAsync::Encode` (`async_encoder.cpp:723-757`): throw
synchronously when not configured, otherwise clone the frame, push the
job and notify. -/
def encodeApi (s : Sess) (id : Nat) : Except String Sess :=
  if s.configured then
    Except.ok { s with queue := s.queue ++ [Job.enc id],
                       submitted := s.submitted ++ [Job.enc id] }
  else Except.error "Encoder not configured"

/-- Argument of a synchronous flush-callback invocation (`env.Null()`). -/
inductive CbArg where
  | nullArg
deriving DecidableEq, Repr

/-- Model of `VideoEncoderAsync::Flush` (`async_encoder.cpp:759-790`): when not
configured, invoke the supplied callback synchronously once with null
and return; otherwise install the flush callback and enqueue a flush
job. -/
def flushApi (s : Sess) : Sess × List CbArg :=
  if s.configured then
    ({ s with queue := s.queue ++ [Job.flushJob],
              submitted := s.submitted ++ [Job.flushJob],
              flushPending := true }, [])
  else (s, [CbArg.nullArg])

/-- Minimal decoder session state for `VideoDecoderAsync::Flush`. -/
structure DecSess where
  configured : Bool
  queue : List Job
deriving DecidableEq, Repr

/-- Model of `VideoDecoderAsync::Flush` (`async_decoder.cpp:357-389`), same
not-configured short-circuit as the encoder. -/
def flushApiDec (d : DecSess) : DecSess × List CbArg :=
  if d.configured then ({ d with queue := d.queue ++ [Job.flushJob] }, [])
  else (d, [CbArg.nullArg])

/-- How many further dequeues the worker can perform once the running
flag is down, by program point: one when it already passed the loop-head
check and sits past the wait, zero otherwise. -/
def deqBound : WPC → Nat
  | .atWait => 1
  | _ => 0

/-- Delivery/codec bookkeeping between two states: the later state's
deliveries extend the earlier's exactly by the outputs of the jobs
completed in between, folded through the codec from the earlier buffer. -/
def Tracks (M : CodecModel) (s t : Sess) : Prop :=
  t.codecOpen = true ∧
  s.processed.length ≤ t.processed.length ∧
  t.codecBuf = (runJobs M s.codecBuf (t.processed.drop s.processed.length)).1 ∧
  t.delivered = s.delivered ++ (runJobs M s.codecBuf (t.processed.drop s.processed.length)).2

/-- FIFO bookkeeping: completed jobs, then the in-flight job, then the
queue, in that order, reconstitute the submission history. -/
def OrderInv (t : Sess) : Prop :=
  t.processed ++ busyList t.wpc ++ t.queue = t.submitted

/-- Label sequence: submit jobs 1 and 2, flush, then the worker drains
all three jobs. -/
def c1Labs : List Lab :=
  [.submit 1, .submit 2, .flushCall,
   .wTopGo, .wWaitDeq, .wStep, .wTopGo, .wWaitDeq, .wStep, .wTopGo, .wWaitDeq, .wStep]

/-- The state `c1Labs` reaches from `initSess` under a lookahead-1
codec. -/
def c1State : Sess :=
  { queue := [], running := true, configured := true, closedFlag := false,
    codecOpen := true, codecBuf := [],
    delivered := [.chunk 1, .chunk 2, .flushComplete], flushPending := false,
    wpc := .atTop, processed := [.enc 1, .enc 2, .flushJob],
    submitted := [.enc 1, .enc 2, .flushJob] }

/-- Labels for the C2 witness: submit 5 and 6, flush, worker drains. -/
def c2Labs : List Lab :=
  [.submit 5, .submit 6, .flushCall,
   .wTopGo, .wWaitDeq, .wStep, .wTopGo, .wWaitDeq, .wStep, .wTopGo, .wWaitDeq, .wStep]

/-- The state `c2Labs` reaches from `initSess` under a lookahead-2
codec: both chunks drain at the flush, before the completion signal. -/
def c2State : Sess :=
  { queue := [], running := true, configured := true, closedFlag := false,
    codecOpen := true, codecBuf := [],
    delivered := [.chunk 5, .chunk 6, .flushComplete], flushPending := false,
    wpc := .atTop, processed := [.enc 5, .enc 6, .flushJob],
    submitted := [.enc 5, .enc 6, .flushJob] }

/-- Caller calling close while the worker sits between the loop-head
check and the dequeue: `submit 1` queues a job, the worker passes
`while (running_)` (`wTopGo`), close clears the flag and broadcasts
(`stopSignal`) — and the worker still dequeues and fully processes the
queued job before exiting. -/
def c5Labs1 : List Lab := [.submit 1, .wTopGo, .stopSignal]

/-- State after `c5Labs1`: flag down, a job still queued, none in
flight. -/
def c5MidState : Sess :=
  { queue := [Job.enc 1], running := false, configured := true, closedFlag := false,
    codecOpen := true, codecBuf := [], delivered := [], flushPending := false,
    wpc := .atWait, processed := [], submitted := [Job.enc 1] }

/-- The remainder: the worker dequeues and processes the job, exits,
and only then can close's join-and-release half run. -/
def c5Labs2 : List Lab := [.wWaitDeq, .wStep, .wTopExit, .joinCleanup]

/-- Final state of the C5 counterexample trace. -/
def c5EndState : Sess :=
  { queue := [], running := false, configured := false, closedFlag := true,
    codecOpen := false, codecBuf := [], delivered := [Out.chunk 1], flushPending := false,
    wpc := .exited, processed := [Job.enc 1], submitted := [Job.enc 1] }

/-- Model of `s` never again produces anything related to frame id `J`: no chunk
delivered, nothing buffered in the codec, nothing queued, nothing in
flight. -/
def AvoidsJ (J : Nat) (s : Sess) : Prop :=
  Out.chunk J ∉ s.delivered ∧ J ∉ s.codecBuf ∧ Job.enc J ∉ s.queue ∧
  s.wpc ≠ .busy (Job.enc J)

/-- Jobs 3 and 4 are submitted and then discarded by `reset`. -/
def c6Pre : List Lab := [.submit 3, .submit 4]

/-- State after `c6Pre` from `initSess`. -/
def c6S1 : Sess :=
  { queue := [Job.enc 3, Job.enc 4], running := true, configured := true,
    closedFlag := false, codecOpen := true, codecBuf := [], delivered := [],
    flushPending := false, wpc := .atTop, processed := [],
    submitted := [Job.enc 3, Job.enc 4] }

/-- State after the `reset` call: queue emptied, codec buffers dropped. -/
def c6S2 : Sess :=
  { queue := [], running := true, configured := true, closedFlag := false,
    codecOpen := true, codecBuf := [], delivered := [], flushPending := false,
    wpc := .atTop, processed := [], submitted := [Job.enc 3, Job.enc 4] }

/-- After the reset, job 9 is submitted and processed normally. -/
def c6Post : List Lab := [.submit 9, .wTopGo, .wWaitDeq, .wStep]

/-- Final state: only job 9's chunk was delivered. -/
def c6End : Sess :=
  { queue := [], running := true, configured := true, closedFlag := false,
    codecOpen := true, codecBuf := [], delivered := [Out.chunk 9],
    flushPending := false, wpc := .atTop, processed := [Job.enc 9],
    submitted := [Job.enc 3, Job.enc 4, Job.enc 9] }

/-- The closed terminal state the C7 witness drives `initSess` into. -/
def c7End : Sess :=
  { queue := [], running := false, configured := false, closedFlag := true,
    codecOpen := false, codecBuf := [], delivered := [], flushPending := false,
    wpc := .exited, processed := [], submitted := [] }

/-- An unconfigured session for the C10 witness. -/
def c10State : Sess := { initSess with configured := false }

/-- With `NoPreference`, `selectEncoder` either finds nothing or returns
the first available entry of the family's priority list. -/
lemma selectEncoder_noPref_cases (R : Registry) (c : String) :
    selectEncoder R c .noPref = ⟨none, .hwNone, .yuv420p, false⟩ ∨
    ∃ e ∈ getEncoderList (getCodecType c), R.avail e.name = true ∧
      selectEncoder R c .noPref = ⟨some e.name, e.hwType, e.fmt, e.hwType == .vaapi⟩ := by
  rcases hfind : (getEncoderList (getCodecType c)).find?
      (fun e => (!(HWPref.noPref == HWPref.preferSW) || e.hwType == .hwNone) && R.avail e.name)
      with _ | e
  · left
    by_cases hemp : (getEncoderList (getCodecType c)).isEmpty
    · simp [selectEncoder, hemp]
    · simp [selectEncoder, hemp, hfind]
  · right
    have hmem : e ∈ getEncoderList (getCodecType c) := List.mem_of_find?_eq_some hfind
    have havail : R.avail e.name = true := by
      have h2 := List.find?_some hfind
      simp only [Bool.and_eq_true] at h2
      exact h2.2
    have hemp : (getEncoderList (getCodecType c)).isEmpty = false := by
      rcases h : (getEncoderList (getCodecType c)).isEmpty with _ | _
      · rfl
      · rw [List.isEmpty_iff] at h
        rw [h] at hfind
        exact absurd hfind (by simp)
    exact ⟨e, hmem, havail, by simp [selectEncoder, hemp, hfind]⟩

/-- C3: if the selected candidate is a hardware one, its open fails and the
preference is not `PreferHardware`, then `configure` tears down hardware
device and frame pool, re-selects with `PreferSoftware`, reapplies the
baseline parameters and reopens; it errors (leaving the session
unconfigured) exactly when that software re-selection/reopen also fails.
Additionally, with `NoPreference` and no available hardware candidate,
the session comes up against the software candidate with no error. -/
theorem c3_software_fallback :
    (∀ (E : CfgEnv) (cfg : EncCfg) (n : String),
      svcModeOk E cfg = true →
      (selectEncoder E.reg cfg.codec (encCfgPref cfg)).codec = some n →
      (selectEncoder E.reg cfg.codec (encCfgPref cfg)).hwType ≠ .hwNone →
      E.openOk n = false →
      encCfgPref cfg ≠ .preferHW →
      (configureEnc E cfg).hwDeviceCtx = none ∧
      (configureEnc E cfg).hwFramesCtx = none ∧
      (∀ m, (selectEncoder E.reg cfg.codec .preferSW).codec = some m →
        E.openOk m = true →
        (configureEnc E cfg).configured = true ∧
        (configureEnc E cfg).err = none ∧
        (configureEnc E cfg).hwType = .hwNone ∧
        (configureEnc E cfg).codecCtx = some (baselineParams cfg m)) ∧
      (∀ m, (selectEncoder E.reg cfg.codec .preferSW).codec = some m →
        E.openOk m = false →
        (configureEnc E cfg).configured = false ∧
        (configureEnc E cfg).err = some "Failed to open codec" ∧
        (configureEnc E cfg).codecCtx = none) ∧
      ((selectEncoder E.reg cfg.codec .preferSW).codec = none →
        (configureEnc E cfg).configured = false ∧
        (configureEnc E cfg).err = some "Failed to open codec" ∧
        (configureEnc E cfg).codecCtx = none)) ∧
    (∀ (E : CfgEnv) (cfg : EncCfg) (m : String),
      svcModeOk E cfg = true →
      cfg.hardwareAcceleration = none →
      (∀ e ∈ getEncoderList (getCodecType cfg.codec),
        e.hwType ≠ .hwNone → E.reg.avail e.name = false) →
      (selectEncoder E.reg cfg.codec .noPref).codec = some m →
      E.openOk m = true →
      (configureEnc E cfg).configured = true ∧
      (configureEnc E cfg).err = none ∧
      (configureEnc E cfg).hwType = .hwNone ∧
      (configureEnc E cfg).hwDeviceCtx = none ∧
      (∃ e ∈ getEncoderList (getCodecType cfg.codec),
        e.hwType = .hwNone ∧ e.name = m) ∧
      ((configureEnc E cfg).codecCtx.map CodecParams.name) = some m) := by
  constructor
  · intro E cfg n hsvc hsel hht hopen hpref
    simp only [configureEnc, resolvedEnc, hsel, hsvc, Bool.not_true, hopen]
    simp only [Bool.false_eq_true, if_false]
    have hht' : ((selectEncoder E.reg cfg.codec (encCfgPref cfg)).hwType != HWType.hwNone) = true := by
      simpa using hht
    have hpref' : (encCfgPref cfg != HWPref.preferHW) = true := by
      simpa using hpref
    simp only [hht', hpref', Bool.and_self, Bool.true_and, if_true]
    rcases hsw : (selectEncoder E.reg cfg.codec .preferSW).codec with _ | m
    · simp [hsw]
    · refine ⟨?_, ?_, ?_, ?_, ?_⟩
      · rcases hm : E.openOk m with _ | _ <;> simp [hm]
      · rcases hm : E.openOk m with _ | _ <;> simp [hm]
      · intro m' hm' hopen'
        injection hm' with hm'
        subst hm'
        simp [hopen', baselineParams]
      · intro m' hm' hopen'
        injection hm' with hm'
        subst hm'
        simp [hopen']
      · intro h
        exact absurd h (by simp)
  · intro E cfg m hsvc hnopref hnohw hsel hopen
    have hprefeq : encCfgPref cfg = .noPref := by
      simp [encCfgPref, hnopref]
    rcases selectEncoder_noPref_cases E.reg cfg.codec with hbase | ⟨e, hmem, havail, heq⟩
    · rw [hbase] at hsel
      exact absurd hsel (by simp)
    · have hname : e.name = m := by
        rw [heq] at hsel
        simpa using hsel
      have hhw : e.hwType = .hwNone := by
        by_contra hc
        have := hnohw e hmem hc
        rw [this] at havail
        exact absurd havail (by simp)
      have heq2 : selectEncoder E.reg cfg.codec .noPref =
          ⟨some m, .hwNone, e.fmt, false⟩ := by
        rw [heq, hname, hhw]
        rfl
      subst hname
      refine ?_
      simp only [configureEnc, resolvedEnc, hprefeq, heq2]
      simp only [show (HWType.hwNone != HWType.hwNone) = false from rfl,
        Bool.false_eq_true, if_false, Bool.false_and, Bool.and_self,
        hsvc, Bool.not_true, hopen, if_true]
      exact ⟨by simp, by simp, by simp, by simp, ⟨e, hmem, hhw, rfl⟩, by simp⟩

/-- Witness for `c3_software_fallback`: in `envFallback`, configuring
`cfgNoPref` picks `h264_nvenc`, fails to open it, falls back to
`libx264` and succeeds with the hardware contexts torn down. -/
theorem c3_software_fallback_witness :
    (configureEnc envFallback cfgNoPref).configured = true ∧
    (configureEnc envFallback cfgNoPref).err = none ∧
    (configureEnc envFallback cfgNoPref).hwDeviceCtx = none ∧
    (configureEnc envFallback cfgNoPref).codecCtx = some (baselineParams cfgNoPref "libx264") := by
  have h := c3_software_fallback.1 envFallback cfgNoPref "h264_nvenc"
    (by decide) (by decide) (by decide) (by decide) (by decide)
  have h2 := h.2.2.1 "libx264" (by decide) (by decide)
  exact ⟨h2.1, h2.2.1, h.1, h2.2.2.2⟩

/-- C4 counterexample: when the hardware open fails under
`prefer-hardware`, `Configure` throws with `codecCtx_` nulled but never
unrefs `hwDeviceCtx_` (the teardown at `async_encoder.cpp:435-442` is
inside the `hwPref != PreferHardware` branch), so the session is left
unconfigured with a null codec handle and a *non-null* hardware device
context — not the all-null state the claim asserts. -/
theorem c4_counterexample :
    (configureEnc envHWOpenFails cfgPreferHW).configured = false ∧
    (configureEnc envHWOpenFails cfgPreferHW).codecCtx = none ∧
    (configureEnc envHWOpenFails cfgPreferHW).hwDeviceCtx = some .nvenc := by
  decide

/-- C4 amended: after `configure` returns, the session is Configured iff
no error was surfaced, and a Configured session always holds a valid
codec handle; on every failure path that reaches the codec-open attempt
(the config passes the scalability validation) the codec handle is null,
and with a preference other than `PreferHardware` both hardware contexts
are null as well.  The two partially-initialized exceptions the code has
are pinned down: the unsupported-`scalabilityMode` rejection returns
with the freshly allocated codec context (and any created hardware
contexts) retained while Unconfigured, and a hardware open failure under
`PreferHardware` retains the created hardware contexts while the codec
handle is null. -/
theorem c4_all_or_nothing :
    ∀ (E : CfgEnv) (cfg : EncCfg),
      ((configureEnc E cfg).configured = true ↔ (configureEnc E cfg).err = none) ∧
      ((configureEnc E cfg).configured = true → (configureEnc E cfg).codecCtx ≠ none) ∧
      (svcModeOk E cfg = true → (configureEnc E cfg).configured = false →
        (configureEnc E cfg).codecCtx = none ∧
        (encCfgPref cfg ≠ .preferHW →
          (configureEnc E cfg).hwDeviceCtx = none ∧
          (configureEnc E cfg).hwFramesCtx = none)) ∧
      (svcModeOk E cfg = false → resolvedEnc E cfg ≠ none →
        (configureEnc E cfg).configured = false ∧
        (configureEnc E cfg).codecCtx ≠ none ∧
        (configureEnc E cfg).err = some "Unsupported scalabilityMode") := by
  intro E cfg
  simp only [configureEnc]
  split
  · next heq =>
      refine ⟨by simp, by simp, by simp, ?_⟩
      intro _ hne
      exact absurd heq hne
  · split
    · next hsvc =>
        have hsvcF : svcModeOk E cfg = false := by
          rcases hb : svcModeOk E cfg with _ | _
          · rfl
          · rw [hb] at hsvc
            exact absurd hsvc (by simp)
        refine ⟨by simp, by simp, ?_, ?_⟩
        · intro hok
          rw [hok] at hsvcF
          exact absurd hsvcF (by simp)
        · intro _ _
          exact ⟨by simp, by simp, by simp⟩
    · next hsvc =>
        have hsvcT : svcModeOk E cfg = true := by
          rcases hb : svcModeOk E cfg with _ | _
          · rw [hb] at hsvc
            exact absurd (by simp) hsvc
          · rfl
        split
        · refine ⟨by simp, by simp, by simp, ?_⟩
          intro hsvcF
          rw [hsvcT] at hsvcF
          exact absurd hsvcF (by simp)
        · split
          · split
            · split
              · refine ⟨by simp, by simp, by simp, ?_⟩
                intro hsvcF
                rw [hsvcT] at hsvcF
                exact absurd hsvcF (by simp)
              · refine ⟨by simp, by simp, ?_, ?_⟩
                · intro _ _
                  exact ⟨by simp, fun _ => ⟨by simp, by simp⟩⟩
                · intro hsvcF
                  rw [hsvcT] at hsvcF
                  exact absurd hsvcF (by simp)
            · refine ⟨by simp, by simp, ?_, ?_⟩
              · intro _ _
                exact ⟨by simp, fun _ => ⟨by simp, by simp⟩⟩
              · intro hsvcF
                rw [hsvcT] at hsvcF
                exact absurd hsvcF (by simp)
          · next hcond =>
              rename_i resOpt cname ht hfmt reqFrames heqr hopen
              refine ⟨by simp, by simp, ?_, ?_⟩
              · intro _ _
                refine ⟨by simp, ?_⟩
                intro hp
                have hp' : (encCfgPref cfg != HWPref.preferHW) = true := by
                  simpa using hp
                have hht : (ht != HWType.hwNone) = false := by
                  rcases hb : (ht != HWType.hwNone) with _ | _
                  · rfl
                  · exact absurd (by rw [hb, hp']; rfl) hcond
                constructor <;> simp [hht]
              · intro hsvcF
                rw [hsvcT] at hsvcF
                exact absurd hsvcF (by simp)

/-- Witness for `c4_all_or_nothing`: the all-null consequence evaluated
in `envHWOpenFails` with no hardware preference, and the
partially-initialized scalability-rejection state in `envSvcReject`. -/
theorem c4_all_or_nothing_witness :
    ((configureEnc envHWOpenFails cfgNoPref).codecCtx = none ∧
      (configureEnc envHWOpenFails cfgNoPref).hwDeviceCtx = none ∧
      (configureEnc envHWOpenFails cfgNoPref).hwFramesCtx = none) ∧
    ((configureEnc envSvcReject cfgBadSvc).configured = false ∧
      (configureEnc envSvcReject cfgBadSvc).codecCtx ≠ none ∧
      (configureEnc envSvcReject cfgBadSvc).err = some "Unsupported scalabilityMode") := by
  constructor
  · have h := (c4_all_or_nothing envHWOpenFails cfgNoPref).2.2.1 (by decide) (by decide)
    exact ⟨h.1, h.2 (by decide)⟩
  · exact (c4_all_or_nothing envSvcReject cfgBadSvc).2.2.2 (by decide) (by decide)

/-- C9: a frame already in the target format and configured dimensions
is copied structurally: the encoder input carries byte-identical pixel
data, the cached conversion context is untouched, and the result does
not depend on the scaling function at all (no conversion pass runs). -/
theorem c9_conversion_short_circuit :
    ∀ (scale scale2 : SwsKey → List Nat → List Nat) (W H : Int)
      (codecPixFmt : PixFmt) (alphaKeep : Bool) (sws : Option SwsKey) (src : RawFrame),
      src.fmt = targetFormatFor codecPixFmt alphaKeep src →
      src.w = W → src.h = H →
      (convertStep scale W H codecPixFmt alphaKeep sws src).2.dat = src.dat ∧
      (convertStep scale W H codecPixFmt alphaKeep sws src).1 = sws ∧
      convertStep scale W H codecPixFmt alphaKeep sws src =
        convertStep scale2 W H codecPixFmt alphaKeep sws src := by
  intro scale scale2 W H codecPixFmt alphaKeep sws src hfmt hw hh
  have hcond : (src.fmt != targetFormatFor codecPixFmt alphaKeep src
      || src.w != W || src.h != H) = false := by
    rw [hfmt, hw, hh]
    simp
  refine ⟨?_, ?_, ?_⟩ <;> simp [convertStep, hcond]

/-- Witness for `c9_conversion_short_circuit` at a concrete matching
frame and two different scaling functions. -/
theorem c9_conversion_short_circuit_witness :
    (convertStep (fun _ _ => []) 4 4 .yuv420p false none ⟨.yuv420p, 4, 4, [1, 2, 3]⟩).2.dat
        = [1, 2, 3] ∧
    (convertStep (fun _ _ => []) 4 4 .yuv420p false none ⟨.yuv420p, 4, 4, [1, 2, 3]⟩).1 = none ∧
    convertStep (fun _ _ => []) 4 4 .yuv420p false none ⟨.yuv420p, 4, 4, [1, 2, 3]⟩ =
      convertStep (fun _ d => 9 :: d) 4 4 .yuv420p false none ⟨.yuv420p, 4, 4, [1, 2, 3]⟩ :=
  c9_conversion_short_circuit (fun _ _ => []) (fun _ d => 9 :: d) 4 4 .yuv420p false none
    ⟨.yuv420p, 4, 4, [1, 2, 3]⟩ (by decide) rfl rfl

/-- C8 counterexample: after converting `frameA` (which caches a context
keyed `RGBA 100x50 -> YUV420P 64x36`), converting `frameB` — whose own
pair is `NV12 64x32 -> YUV420P 64x36` — does *not* recreate the context:
the cached key stays `frameA`'s pair and the scale runs with that
mismatched context (`scaleTag` returns `[1]`, the RGBA-keyed output,
instead of `[2]`).  This refutes "recreated when (and only when) that
pair changes" and "converted with a context matching its own pair". -/
theorem c8_counterexample :
    (convertStep scaleTag 64 36 .yuv420p false
        (convertStep scaleTag 64 36 .yuv420p false none frameA).1 frameB).1 =
      some (jobPair frameA .yuv420p 64 36) ∧
    jobPair frameA .yuv420p 64 36 ≠ jobPair frameB .yuv420p 64 36 ∧
    (convertStep scaleTag 64 36 .yuv420p false
        (convertStep scaleTag 64 36 .yuv420p false none frameA).1 frameB).2.dat = [1] ∧
    scaleTag (jobPair frameB .yuv420p 64 36) frameB.dat = [2] := by
  decide

/-- C8 amended: the conversion context is created lazily on the first
job that needs converting, keyed by that job's (src, dst) pair, and is
then cached unchanged for the rest of the session — it is never
recreated when a later job's pair differs, and such a job is scaled with
the originally-keyed context. -/
theorem c8_sws_cache :
    ∀ (scale : SwsKey → List Nat → List Nat) (W H : Int)
      (codecPixFmt : PixFmt) (alphaKeep : Bool) (sws : Option SwsKey) (src : RawFrame),
      (∀ k0, sws = some k0 →
        (convertStep scale W H codecPixFmt alphaKeep sws src).1 = some k0 ∧
        ((src.fmt != targetFormatFor codecPixFmt alphaKeep src
            || src.w != W || src.h != H) = true →
          (convertStep scale W H codecPixFmt alphaKeep sws src).2.dat = scale k0 src.dat)) ∧
      (sws = none →
        (src.fmt != targetFormatFor codecPixFmt alphaKeep src
            || src.w != W || src.h != H) = true →
        (convertStep scale W H codecPixFmt alphaKeep sws src).1 =
          some (jobPair src (targetFormatFor codecPixFmt alphaKeep src) W H)) ∧
      (sws = none →
        (src.fmt != targetFormatFor codecPixFmt alphaKeep src
            || src.w != W || src.h != H) = false →
        (convertStep scale W H codecPixFmt alphaKeep sws src).1 = none) := by
  intro scale W H codecPixFmt alphaKeep sws src
  refine ⟨?_, ?_, ?_⟩
  · intro k0 hk
    subst hk
    constructor
    · rcases hc : (src.fmt != targetFormatFor codecPixFmt alphaKeep src
          || src.w != W || src.h != H) with _ | _ <;> simp [convertStep, hc]
    · intro hc
      simp [convertStep, hc]
  · intro hn hc
    subst hn
    simp [convertStep, hc]
  · intro hn hc
    subst hn
    simp [convertStep, hc]

/-- Witness for `c8_sws_cache`: with a cached context present, a
converting job leaves the cached key unchanged and is scaled with it. -/
theorem c8_sws_cache_witness :
    (convertStep scaleTag 64 36 .yuv420p false
        (some (jobPair frameA .yuv420p 64 36)) frameB).1 =
      some (jobPair frameA .yuv420p 64 36) ∧
    (convertStep scaleTag 64 36 .yuv420p false
        (some (jobPair frameA .yuv420p 64 36)) frameB).2.dat =
      scaleTag (jobPair frameA .yuv420p 64 36) frameB.dat := by
  have h := (c8_sws_cache scaleTag 64 36 .yuv420p false
      (some (jobPair frameA .yuv420p 64 36)) frameB).1
      (jobPair frameA .yuv420p 64 36) rfl
  exact ⟨h.1, h.2 (by decide)⟩

lemma runL_append (M : CodecModel) (s : Sess) (xs ys : List Lab) :
    runL M s (xs ++ ys) = (runL M s xs).bind (fun t => runL M t ys) := by
  induction xs generalizing s with
  | nil => simp [runL]
  | cons l ls ih =>
      simp only [List.cons_append, runL]
      cases stepF M s l with
      | none => simp
      | some t => simp [ih]

lemma runJobs_append (M : CodecModel) (b : List Nat) (xs ys : List Job) :
    runJobs M b (xs ++ ys) =
      ((runJobs M (runJobs M b xs).1 ys).1,
       (runJobs M b xs).2 ++ (runJobs M (runJobs M b xs).1 ys).2) := by
  induction xs generalizing b with
  | nil => simp [runJobs]
  | cons j rest ih => simp [runJobs, ih, List.append_assoc]

lemma runJobs_singleton (M : CodecModel) (b : List Nat) (j : Job) :
    runJobs M b [j] = stepJob M b j := by
  simp [runJobs]

lemma stepF_running_false {M : CodecModel} {s t : Sess} {l : Lab}
    (h : stepF M s l = some t) (hr : s.running = false) : t.running = false := by
  cases l <;> simp only [stepF] at h <;> (repeat' split at h) <;>
    (try cases h) <;> simp_all

lemma stepF_codecOpen {M : CodecModel} {s t : Sess} {l : Lab}
    (h : stepF M s l = some t) (hl : l ≠ Lab.joinCleanup) : t.codecOpen = s.codecOpen := by
  cases l <;> simp only [stepF] at h <;> (repeat' split at h) <;>
    (try cases h) <;> simp_all

lemma stepF_submitted_worker {M : CodecModel} {s t : Sess} {l : Lab}
    (h : stepF M s l = some t) (hl : workerLab l = true) : t.submitted = s.submitted := by
  cases l <;> simp only [workerLab] at hl <;> simp only [stepF] at h <;>
    (repeat' split at h) <;> (try cases h) <;> simp_all

/-- Exhaustive characterization of enabled transitions. -/
lemma stepF_cases {M : CodecModel} {s u : Sess} {l : Lab} (h : stepF M s l = some u) :
    (∃ id, l = .submit id ∧ s.configured = true ∧
      u = { s with queue := s.queue ++ [Job.enc id],
                   submitted := s.submitted ++ [Job.enc id] }) ∨
    (l = .flushCall ∧ s.configured = true ∧
      u = { s with queue := s.queue ++ [Job.flushJob],
                   submitted := s.submitted ++ [Job.flushJob], flushPending := true }) ∨
    (l = .resetCall ∧
      u = { s with queue := [], codecBuf := if s.codecOpen then [] else s.codecBuf }) ∨
    (l = .stopSignal ∧ u = { s with running := false }) ∨
    (l = .joinCleanup ∧ s.wpc = .exited ∧
      u = { s with queue := [], codecOpen := false, configured := false,
                   closedFlag := true }) ∨
    (l = .wTopGo ∧ s.wpc = .atTop ∧ s.running = true ∧ u = { s with wpc := .atWait }) ∨
    (l = .wTopExit ∧ s.wpc = .atTop ∧ s.running = false ∧ u = { s with wpc := .exited }) ∨
    (l = .wWaitBreak ∧ s.wpc = .atWait ∧ s.running = false ∧ s.queue = [] ∧
      u = { s with wpc := .exited }) ∨
    (∃ j rest, l = .wWaitDeq ∧ s.queue = j :: rest ∧ s.wpc = .atWait ∧
      u = { s with queue := rest, wpc := .busy j }) ∨
    (∃ id, l = .wStep ∧ s.wpc = .busy (.enc id) ∧ s.codecOpen = true ∧
      u = { s with codecBuf := (M.encodeF s.codecBuf id).1,
                   delivered := s.delivered ++ (M.encodeF s.codecBuf id).2.map Out.chunk,
                   wpc := .atTop, processed := s.processed ++ [Job.enc id] }) ∨
    (∃ id, l = .wStep ∧ s.wpc = .busy (.enc id) ∧ s.codecOpen = false ∧
      u = { s with wpc := .atTop, processed := s.processed ++ [Job.enc id] }) ∨
    (l = .wStep ∧ s.wpc = .busy .flushJob ∧ s.codecOpen = true ∧
      u = { s with codecBuf := (M.flushF s.codecBuf).1,
                   delivered := s.delivered ++ (M.flushF s.codecBuf).2.map Out.chunk
                     ++ [Out.flushComplete],
                   wpc := .atTop, processed := s.processed ++ [Job.flushJob],
                   flushPending := false }) ∨
    (l = .wStep ∧ s.wpc = .busy .flushJob ∧ s.codecOpen = false ∧
      u = { s with wpc := .atTop, processed := s.processed ++ [Job.flushJob],
                   flushPending := false }) := by
  cases l with
  | submit id =>
      have h' : (if s.configured = true then
          some { s with queue := s.queue ++ [Job.enc id],
                        submitted := s.submitted ++ [Job.enc id] }
        else none) = some u := h
      by_cases hc : s.configured = true
      · rw [if_pos hc] at h'
        exact Or.inl ⟨id, rfl, hc, (Option.some.inj h').symm⟩
      · rw [if_neg hc] at h'
        exact Option.noConfusion h'
  | flushCall =>
      have h' : (if s.configured = true then
          some { s with queue := s.queue ++ [Job.flushJob],
                        submitted := s.submitted ++ [Job.flushJob], flushPending := true }
        else none) = some u := h
      by_cases hc : s.configured = true
      · rw [if_pos hc] at h'
        exact Or.inr (Or.inl ⟨rfl, hc, (Option.some.inj h').symm⟩)
      · rw [if_neg hc] at h'
        exact Option.noConfusion h'
  | resetCall =>
      exact Or.inr (Or.inr (Or.inl ⟨rfl, (Option.some.inj h).symm⟩))
  | stopSignal =>
      exact Or.inr (Or.inr (Or.inr (Or.inl ⟨rfl, (Option.some.inj h).symm⟩)))
  | joinCleanup =>
      have h' : (if s.wpc = .exited then
          some { s with queue := [], codecOpen := false, configured := false,
                        closedFlag := true }
        else none) = some u := h
      by_cases hc : s.wpc = .exited
      · rw [if_pos hc] at h'
        exact Or.inr (Or.inr (Or.inr (Or.inr (Or.inl ⟨rfl, hc, (Option.some.inj h').symm⟩))))
      · rw [if_neg hc] at h'
        exact Option.noConfusion h'
  | wTopGo =>
      have h' : (if s.wpc = .atTop ∧ s.running = true then
          some { s with wpc := WPC.atWait } else none) = some u := h
      by_cases hc : s.wpc = .atTop ∧ s.running = true
      · rw [if_pos hc] at h'
        refine Or.inr (Or.inr (Or.inr (Or.inr (Or.inr (Or.inl ?_)))))
        exact ⟨rfl, hc.1, hc.2, (Option.some.inj h').symm⟩
      · rw [if_neg hc] at h'
        exact Option.noConfusion h'
  | wTopExit =>
      have h' : (if s.wpc = .atTop ∧ ¬ s.running = true then
          some { s with wpc := WPC.exited } else none) = some u := h
      by_cases hc : s.wpc = .atTop ∧ ¬ s.running = true
      · rw [if_pos hc] at h'
        refine Or.inr (Or.inr (Or.inr (Or.inr (Or.inr (Or.inr (Or.inl ?_))))))
        exact ⟨rfl, hc.1, by simpa using hc.2, (Option.some.inj h').symm⟩
      · rw [if_neg hc] at h'
        exact Option.noConfusion h'
  | wWaitBreak =>
      have h' : (if s.wpc = .atWait ∧ ¬ s.running = true ∧ s.queue = [] then
          some { s with wpc := WPC.exited } else none) = some u := h
      by_cases hc : s.wpc = .atWait ∧ ¬ s.running = true ∧ s.queue = []
      · rw [if_pos hc] at h'
        refine Or.inr (Or.inr (Or.inr (Or.inr (Or.inr (Or.inr (Or.inr (Or.inl ?_)))))))
        exact ⟨rfl, hc.1, by simpa using hc.2.1, hc.2.2, (Option.some.inj h').symm⟩
      · rw [if_neg hc] at h'
        exact Option.noConfusion h'
  | wWaitDeq =>
      rcases hq : s.queue with _ | ⟨j, rest⟩
      · rw [show stepF M s .wWaitDeq = (match s.queue with
            | [] => none
            | j :: rest => if s.wpc = .atWait then
                some { s with queue := rest, wpc := WPC.busy j } else none) from rfl,
          hq] at h
        exact Option.noConfusion h
      · rw [show stepF M s .wWaitDeq = (match s.queue with
            | [] => none
            | j :: rest => if s.wpc = .atWait then
                some { s with queue := rest, wpc := WPC.busy j } else none) from rfl,
          hq] at h
        have h2 : (if s.wpc = WPC.atWait then
            some { s with queue := rest, wpc := WPC.busy j } else none) = some u := h
        by_cases hc : s.wpc = .atWait
        · rw [if_pos hc] at h2
          refine Or.inr (Or.inr (Or.inr (Or.inr (Or.inr (Or.inr (Or.inr (Or.inr (Or.inl ?_))))))))
          exact ⟨j, rest, rfl, rfl, hc, (Option.some.inj h2).symm⟩
        · rw [if_neg hc] at h2
          exact Option.noConfusion h2
  | wStep =>
      rcases hw : s.wpc with _ | _ | j | _
      all_goals rw [show stepF M s .wStep = (match s.wpc with
          | .busy (.enc id) =>
              if s.codecOpen then
                some { s with codecBuf := (M.encodeF s.codecBuf id).1,
                              delivered := s.delivered
                                ++ (M.encodeF s.codecBuf id).2.map Out.chunk,
                              wpc := .atTop, processed := s.processed ++ [Job.enc id] }
              else
                some { s with wpc := .atTop, processed := s.processed ++ [Job.enc id] }
          | .busy .flushJob =>
              if s.codecOpen then
                some { s with codecBuf := (M.flushF s.codecBuf).1,
                              delivered := s.delivered
                                ++ (M.flushF s.codecBuf).2.map Out.chunk
                                ++ [Out.flushComplete],
                              wpc := .atTop, processed := s.processed ++ [Job.flushJob],
                              flushPending := false }
              else
                some { s with wpc := .atTop, processed := s.processed ++ [Job.flushJob],
                              flushPending := false }
          | _ => none) from rfl, hw] at h
      · exact Option.noConfusion h
      · exact Option.noConfusion h
      · cases j with
        | enc id =>
            have h2 : (if s.codecOpen = true then
                some { s with codecBuf := (M.encodeF s.codecBuf id).1,
                              delivered := s.delivered
                                ++ (M.encodeF s.codecBuf id).2.map Out.chunk,
                              wpc := WPC.atTop, processed := s.processed ++ [Job.enc id] }
              else
                some { s with wpc := WPC.atTop,
                              processed := s.processed ++ [Job.enc id] }) = some u := h
            by_cases hco : s.codecOpen = true
            · rw [if_pos hco] at h2
              refine Or.inr (Or.inr (Or.inr (Or.inr (Or.inr (Or.inr (Or.inr (Or.inr
                (Or.inr (Or.inl ?_)))))))))
              exact ⟨id, rfl, rfl, hco, (Option.some.inj h2).symm⟩
            · rw [if_neg hco] at h2
              refine Or.inr (Or.inr (Or.inr (Or.inr (Or.inr (Or.inr (Or.inr (Or.inr
                (Or.inr (Or.inr (Or.inl ?_))))))))))
              exact ⟨id, rfl, rfl, by simpa using hco, (Option.some.inj h2).symm⟩
        | flushJob =>
            have h2 : (if s.codecOpen = true then
                some { s with codecBuf := (M.flushF s.codecBuf).1,
                              delivered := s.delivered
                                ++ (M.flushF s.codecBuf).2.map Out.chunk
                                ++ [Out.flushComplete],
                              wpc := WPC.atTop, processed := s.processed ++ [Job.flushJob],
                              flushPending := false }
              else
                some { s with wpc := WPC.atTop, processed := s.processed ++ [Job.flushJob],
                              flushPending := false }) = some u := h
            by_cases hco : s.codecOpen = true
            · rw [if_pos hco] at h2
              refine Or.inr (Or.inr (Or.inr (Or.inr (Or.inr (Or.inr (Or.inr (Or.inr
                (Or.inr (Or.inr (Or.inr (Or.inl ?_)))))))))))
              exact ⟨rfl, rfl, hco, (Option.some.inj h2).symm⟩
            · rw [if_neg hco] at h2
              refine Or.inr (Or.inr (Or.inr (Or.inr (Or.inr (Or.inr (Or.inr (Or.inr
                (Or.inr (Or.inr (Or.inr (Or.inr ?_)))))))))))
              exact ⟨rfl, rfl, by simpa using hco, (Option.some.inj h2).symm⟩
      · exact Option.noConfusion h

lemma stepF_tracks {M : CodecModel} {s t u : Sess} {l : Lab}
    (hTr : Tracks M s t) (h : stepF M t l = some u)
    (hl1 : l ≠ Lab.resetCall) (hl2 : l ≠ Lab.joinCleanup) : Tracks M s u := by
  obtain ⟨hco, hlen, hbuf, hdel⟩ := hTr
  rcases stepF_cases h with
      ⟨id, hl, hc, hu⟩ | ⟨hl, hc, hu⟩ | ⟨hl, hu⟩ | ⟨hl, hu⟩ | ⟨hl, hc, hu⟩ |
      ⟨hl, hw, hr, hu⟩ | ⟨hl, hw, hr, hu⟩ | ⟨hl, hw, hr, hq, hu⟩ |
      ⟨j, rest, hl, hq, hw, hu⟩ | ⟨id, hl, hw, hcoS, hu⟩ | ⟨id, hl, hw, hcoS, hu⟩ |
      ⟨hl, hw, hcoS, hu⟩ | ⟨hl, hw, hcoS, hu⟩
  · exact hu ▸ ⟨hco, hlen, hbuf, hdel⟩
  · exact hu ▸ ⟨hco, hlen, hbuf, hdel⟩
  · exact absurd hl hl1
  · exact hu ▸ ⟨hco, hlen, hbuf, hdel⟩
  · exact absurd hl hl2
  · exact hu ▸ ⟨hco, hlen, hbuf, hdel⟩
  · exact hu ▸ ⟨hco, hlen, hbuf, hdel⟩
  · exact hu ▸ ⟨hco, hlen, hbuf, hdel⟩
  · exact hu ▸ ⟨hco, hlen, hbuf, hdel⟩
  · subst hu
    refine ⟨hco, ?_, ?_, ?_⟩
    · show s.processed.length ≤ (t.processed ++ [Job.enc id]).length
      simp only [List.length_append, List.length_cons, List.length_nil]
      omega
    · show (M.encodeF t.codecBuf id).1 = _
      rw [List.drop_append_of_le_length hlen, runJobs_append, runJobs_singleton, ← hbuf]
      rfl
    · show t.delivered ++ _ = _
      rw [List.drop_append_of_le_length hlen, runJobs_append, runJobs_singleton, ← hbuf, hdel]
      simp [stepJob, List.append_assoc]
  · rw [hcoS] at hco
    exact Bool.noConfusion hco
  · subst hu
    refine ⟨hco, ?_, ?_, ?_⟩
    · show s.processed.length ≤ (t.processed ++ [Job.flushJob]).length
      simp only [List.length_append, List.length_cons, List.length_nil]
      omega
    · show (M.flushF t.codecBuf).1 = _
      rw [List.drop_append_of_le_length hlen, runJobs_append, runJobs_singleton, ← hbuf]
      rfl
    · show t.delivered ++ _ ++ _ = _
      rw [List.drop_append_of_le_length hlen, runJobs_append, runJobs_singleton, ← hbuf, hdel]
      simp [stepJob, List.append_assoc]
  · rw [hcoS] at hco
    exact Bool.noConfusion hco

lemma stepF_order {M : CodecModel} {t u : Sess} {l : Lab}
    (hO : OrderInv t) (h : stepF M t l = some u)
    (hl1 : l ≠ Lab.resetCall) (hl2 : l ≠ Lab.joinCleanup) : OrderInv u := by
  unfold OrderInv at *
  rcases stepF_cases h with
      ⟨id, hl, hc, hu⟩ | ⟨hl, hc, hu⟩ | ⟨hl, hu⟩ | ⟨hl, hu⟩ | ⟨hl, hc, hu⟩ |
      ⟨hl, hw, hr, hu⟩ | ⟨hl, hw, hr, hu⟩ | ⟨hl, hw, hr, hq, hu⟩ |
      ⟨j, rest, hl, hq, hw, hu⟩ | ⟨id, hl, hw, hcoS, hu⟩ | ⟨id, hl, hw, hcoS, hu⟩ |
      ⟨hl, hw, hcoS, hu⟩ | ⟨hl, hw, hcoS, hu⟩
  · subst hu
    show t.processed ++ busyList t.wpc ++ (t.queue ++ [Job.enc id]) = _
    rw [← List.append_assoc, hO]
  · subst hu
    show t.processed ++ busyList t.wpc ++ (t.queue ++ [Job.flushJob]) = _
    rw [← List.append_assoc, hO]
  · exact absurd hl hl1
  · subst hu
    exact hO
  · exact absurd hl hl2
  · subst hu
    show t.processed ++ busyList WPC.atWait ++ t.queue = _
    rw [← hO, hw]
    rfl
  · subst hu
    show t.processed ++ busyList WPC.exited ++ t.queue = _
    rw [← hO, hw]
    rfl
  · subst hu
    show t.processed ++ busyList WPC.exited ++ t.queue = _
    rw [← hO, hw]
    rfl
  · subst hu
    show t.processed ++ busyList (WPC.busy j) ++ rest = _
    rw [← hO, hw, hq]
    simp [busyList]
  · subst hu
    show t.processed ++ [Job.enc id] ++ busyList WPC.atTop ++ t.queue = _
    rw [← hO, hw]
    simp [busyList]
  · subst hu
    show t.processed ++ [Job.enc id] ++ busyList WPC.atTop ++ t.queue = _
    rw [← hO, hw]
    simp [busyList]
  · subst hu
    show t.processed ++ [Job.flushJob] ++ busyList WPC.atTop ++ t.queue = _
    rw [← hO, hw]
    simp [busyList]
  · subst hu
    show t.processed ++ [Job.flushJob] ++ busyList WPC.atTop ++ t.queue = _
    rw [← hO, hw]
    simp [busyList]

lemma runL_tracks {M : CodecModel} {s t u : Sess} {labs : List Lab}
    (hAll : ∀ l ∈ labs, l ≠ Lab.resetCall ∧ l ≠ Lab.joinCleanup)
    (hTr : Tracks M s t) (h : runL M t labs = some u) : Tracks M s u := by
  induction labs generalizing t with
  | nil => simp only [runL] at h; cases h; exact hTr
  | cons l ls ih =>
      simp only [runL] at h
      rcases hst : stepF M t l with _ | v <;> rw [hst] at h
      · cases h
      · have hl := hAll l (by simp)
        exact ih (fun x hx => hAll x (by simp [hx])) (stepF_tracks hTr hst hl.1 hl.2) h

lemma runL_order {M : CodecModel} {t u : Sess} {labs : List Lab}
    (hAll : ∀ l ∈ labs, l ≠ Lab.resetCall ∧ l ≠ Lab.joinCleanup)
    (hO : OrderInv t) (h : runL M t labs = some u) : OrderInv u := by
  induction labs generalizing t with
  | nil => simp only [runL] at h; cases h; exact hO
  | cons l ls ih =>
      simp only [runL] at h
      rcases hst : stepF M t l with _ | v <;> rw [hst] at h
      · cases h
      · have hl := hAll l (by simp)
        exact ih (fun x hx => hAll x (by simp [hx])) (stepF_order hO hst hl.1 hl.2) h

lemma tracks_refl {M : CodecModel} {s : Sess} (h : s.codecOpen = true) : Tracks M s s :=
  ⟨h, Nat.le_refl _, by simp [runJobs], by simp [runJobs]⟩

lemma workerLab_ne {l : Lab} (h : workerLab l = true) :
    l ≠ Lab.resetCall ∧ l ≠ Lab.joinCleanup := by
  cases l <;> simp_all [workerLab]

lemma runL_submitted_worker {M : CodecModel} {t u : Sess} {ws : List Lab}
    (hws : ∀ l ∈ ws, workerLab l = true) (h : runL M t ws = some u) :
    u.submitted = t.submitted := by
  induction ws generalizing t with
  | nil => simp only [runL] at h; cases h; rfl
  | cons l ls ih =>
      simp only [runL] at h
      rcases hst : stepF M t l with _ | v <;> rw [hst] at h
      · cases h
      · rw [ih (fun x hx => hws x (by simp [hx])) h,
          stepF_submitted_worker hst (hws l (by simp))]

lemma flushComplete_in_runJobs {M : CodecModel} {b : List Nat} {p : List Job}
    (h : Out.flushComplete ∈ (runJobs M b p).2) : Job.flushJob ∈ p := by
  induction p generalizing b with
  | nil => simp [runJobs] at h
  | cons j rest ih =>
      cases j with
      | enc id =>
          simp only [runJobs, stepJob] at h
          rw [List.mem_append] at h
          rcases h with h | h
          · exfalso
            rcases List.mem_map.mp h with ⟨x, _, hx⟩
            cases hx
          · exact List.mem_cons_of_mem _ (ih h)
      | flushJob => exact List.mem_cons_self _ _

lemma runJobs_conserving {M : CodecModel}
    (hE : ∀ b id, (M.encodeF b id).2 ++ (M.encodeF b id).1 = b ++ [id])
    (hF : ∀ b, M.flushF b = ([], b)) :
    ∀ (ids : List Nat) (b : List Nat),
      runJobs M b (ids.map Job.enc ++ [Job.flushJob]) =
        ([], (b ++ ids).map Out.chunk ++ [Out.flushComplete]) := by
  intro ids
  induction ids with
  | nil =>
      intro b
      simp [runJobs, stepJob, hF]
  | cons id rest ih =>
      intro b
      simp only [List.map_cons, List.cons_append, runJobs, stepJob, List.append_eq]
      rw [ih]
      rw [Prod.ext_iff]
      refine ⟨rfl, ?_⟩
      show (M.encodeF b id).2.map Out.chunk
      ++ (((M.encodeF b id).1 ++ rest).map Out.chunk ++ [Out.flushComplete]) = _
      rw [← List.append_assoc, ← List.map_append, ← List.append_assoc, hE b id]
      simp

lemma append_eq_snoc_split {α : Type} (xs ys as : List α) (f : α)
    (h : xs ++ ys = as ++ [f]) (hf : f ∈ xs) (hnf : f ∉ as) :
    xs = as ++ [f] ∧ ys = [] := by
  have hpre : xs <+: as ++ [f] := ⟨ys, h⟩
  have hlen : (as ++ [f]).length ≤ xs.length := by
    by_contra hlt
    push_neg at hlt
    have hle : xs.length ≤ as.length := by
      simp only [List.length_append, List.length_cons, List.length_nil] at hlt
      omega
    have h1 : (xs ++ ys).take xs.length = xs := List.take_left xs ys
    rw [h] at h1
    rw [List.take_append_of_le_length hle] at h1
    have hx : xs <+: as := by
      rw [← h1]
      exact ⟨as.drop xs.length, List.take_append_drop _ as⟩
    exact hnf (hx.mem hf)
  have hxs := hpre.eq_of_length_le hlen
  refine ⟨hxs, ?_⟩
  have hL := congrArg List.length h
  rw [hxs] at hL
  simp only [List.length_append] at hL
  exact List.eq_nil_of_length_eq_zero (by omega)

lemma runL_submits (M : CodecModel) (ids : List Nat) :
    ∀ s : Sess, s.configured = true →
      runL M s (ids.map Lab.submit) =
        some { s with queue := s.queue ++ ids.map Job.enc,
                      submitted := s.submitted ++ ids.map Job.enc } := by
  induction ids with
  | nil =>
      intro s hc
      simp [runL]
  | cons id rest ih =>
      intro s hc
      have hstep : stepF M s (Lab.submit id) =
          some { s with queue := s.queue ++ [Job.enc id],
                        submitted := s.submitted ++ [Job.enc id] } := by
        simp [stepF, hc]
      show runL M s (Lab.submit id :: rest.map Lab.submit) = _
      rw [show runL M s (Lab.submit id :: rest.map Lab.submit) =
           (match stepF M s (Lab.submit id) with
            | some t => runL M t (rest.map Lab.submit)
            | none => none) from rfl, hstep]
      show runL M { s with queue := s.queue ++ [Job.enc id]
                           submitted := s.submitted ++ [Job.enc id] }
        (rest.map Lab.submit) = _
      rw [ih { s with queue := s.queue ++ [Job.enc id]
                      submitted := s.submitted ++ [Job.enc id] } hc]
      simp

lemma lkModel_conserving (L : Nat) :
    ∀ b id, (((lkModel L).encodeF b id).2 ++ ((lkModel L).encodeF b id).1 = b ++ [id]) := by
  intro b id
  simp only [lkModel]
  by_cases hc : (b ++ [id]).length ≤ L
  · rw [if_pos hc]
    simp
  · rw [if_neg hc]
    simp [List.take_append_drop]

lemma lkModel_flush (L : Nat) : ∀ b, (lkModel L).flushF b = ([], b) := fun _ => rfl

/-- C1: in any run of submissions and worker activity (no reset/close),
the delivered outputs are exactly the outputs of the jobs processed so
far, folded in order, and the processed jobs followed by the in-flight
job and the queue reconstitute the submission order — the n-th block of
results delivered corresponds to the n-th job submitted, for mixed
encode/flush submissions. -/
theorem c1_ordering :
    ∀ (M : CodecModel) (labs : List Lab) (s' : Sess),
      (∀ l ∈ labs, l ≠ Lab.resetCall ∧ l ≠ Lab.joinCleanup) →
      runL M initSess labs = some s' →
      s'.delivered = (runJobs M [] s'.processed).2 ∧
      s'.processed ++ busyList s'.wpc ++ s'.queue = s'.submitted := by
  intro M labs s' hAll hrun
  have hTr : Tracks M initSess s' := runL_tracks hAll (tracks_refl rfl) hrun
  have hO : OrderInv s' := runL_order hAll (by simp [OrderInv, initSess, busyList]) hrun
  obtain ⟨hco, hlen, hbuf, hdel⟩ := hTr
  refine ⟨?_, hO⟩
  simpa [initSess] using hdel

/-- Witness for `c1_ordering` on the concrete trace `c1Labs`. -/
theorem c1_ordering_witness :
    c1State.delivered = (runJobs (lkModel 1) [] c1State.processed).2 ∧
    c1State.processed ++ busyList c1State.wpc ++ c1State.queue = c1State.submitted :=
  c1_ordering (lkModel 1) c1Labs c1State (by decide) (by decide)

/-- C2: `flush` enqueues the flush job behind all currently queued jobs,
and — for any codec that only ever emits what it was fed and drains
completely on flush — once `FlushComplete` is observed, the delivery
sequence is exactly the chunks of the previously submitted jobs
J1..Jk, in submission order, followed by the flush-complete signal:
the signal is observed only after every result attributable to J1..Jk
has been delivered. -/
theorem c2_flush_barrier :
    (∀ (M : CodecModel) (s : Sess), s.configured = true →
      stepF M s Lab.flushCall =
        some { s with queue := s.queue ++ [Job.flushJob],
                      submitted := s.submitted ++ [Job.flushJob], flushPending := true }) ∧
    (∀ M : CodecModel,
      (∀ b id, (M.encodeF b id).2 ++ (M.encodeF b id).1 = b ++ [id]) →
      (∀ b, M.flushF b = ([], b)) →
      ∀ (ids : List Nat) (ws : List Lab) (s' : Sess),
        (∀ l ∈ ws, workerLab l = true) →
        runL M initSess (ids.map Lab.submit ++ [Lab.flushCall] ++ ws) = some s' →
        Out.flushComplete ∈ s'.delivered →
        s'.delivered = ids.map Out.chunk ++ [Out.flushComplete]) := by
  constructor
  · intro M s hc
    simp [stepF, hc]
  · intro M hE hF ids ws s' hws hrun hfc
    set S1 : Sess :=
      { queue := ids.map Job.enc ++ [Job.flushJob], running := true, configured := true,
        closedFlag := false, codecOpen := true, codecBuf := [], delivered := [],
        flushPending := true, wpc := .atTop, processed := [],
        submitted := ids.map Job.enc ++ [Job.flushJob] } with hS1
    have hrun' : runL M S1 ws = some s' := by
      rw [runL_append, runL_append, runL_submits M ids initSess rfl] at hrun
      simp only [Option.some_bind] at hrun
      have h1 : runL M { initSess with
          queue := initSess.queue ++ ids.map Job.enc,
          submitted := initSess.submitted ++ ids.map Job.enc } [Lab.flushCall] = some S1 := by
        simp only [runL, stepF, initSess, hS1]
        simp
      rw [h1] at hrun
      simpa using hrun
    have hAll : ∀ l ∈ ws, l ≠ Lab.resetCall ∧ l ≠ Lab.joinCleanup :=
      fun l hl => workerLab_ne (hws l hl)
    have hTr : Tracks M S1 s' := runL_tracks hAll (tracks_refl rfl) hrun'
    have hO : OrderInv s' := runL_order hAll (by simp [OrderInv, S1, busyList]) hrun'
    have hsub : s'.submitted = ids.map Job.enc ++ [Job.flushJob] :=
      runL_submitted_worker hws hrun'
    obtain ⟨hco, hlen, hbuf, hdel⟩ := hTr
    have hdel' : s'.delivered = (runJobs M [] s'.processed).2 := by
      simpa [S1] using hdel
    have hmem : Job.flushJob ∈ s'.processed :=
      flushComplete_in_runJobs (b := []) (by rw [← hdel']; exact hfc)
    have hsplit := append_eq_snoc_split s'.processed (busyList s'.wpc ++ s'.queue)
      (ids.map Job.enc) Job.flushJob
      (by rw [← List.append_assoc]; rw [OrderInv] at hO; rw [hO, hsub])
      hmem (by simp)
    rw [hdel', hsplit.1, runJobs_conserving hE hF]
    simp

/-- Witness for `c2_flush_barrier` on the concrete trace `c2Labs`. -/
theorem c2_flush_barrier_witness :
    c2State.delivered = [5, 6].map Out.chunk ++ [Out.flushComplete] :=
  c2_flush_barrier.2 (lkModel 2) (lkModel_conserving 2) (lkModel_flush 2)
    [5, 6] [.wTopGo, .wWaitDeq, .wStep, .wTopGo, .wWaitDeq, .wStep, .wTopGo, .wWaitDeq, .wStep]
    c2State (by decide) (by decide) (by decide)

lemma runL_running_false {M : CodecModel} {s u : Sess} {labs : List Lab}
    (hr : s.running = false) (h : runL M s labs = some u) : u.running = false := by
  induction labs generalizing s with
  | nil => simp only [runL] at h; cases h; exact hr
  | cons l ls ih =>
      simp only [runL] at h
      rcases hst : stepF M s l with _ | v <;> rw [hst] at h
      · cases h
      · exact ih (stepF_running_false hst hr) h

/-- C5 counterexample: after the running flag is cleared and the
condition variable broadcast (`stopSignal` in `c5Labs1`), with no job in
flight, the worker nevertheless drains one more job from the queue
(`c5Labs2.count .wWaitDeq = 1`), processes it and delivers its result
before exiting — so close's join waits for queued work, not only for an
in-flight job.  This refutes "the worker drains no further jobs from the
queue" and "close waits only for the single in-flight job". -/
theorem c5_counterexample :
    runL (lkModel 0) initSess c5Labs1 = some c5MidState ∧
    c5MidState.running = false ∧ c5MidState.wpc = .atWait ∧
    c5MidState.queue = [Job.enc 1] ∧
    c5Labs2.count Lab.wWaitDeq = 1 ∧
    runL (lkModel 0) c5MidState c5Labs2 = some c5EndState ∧
    c5EndState.delivered = [Out.chunk 1] ∧ c5EndState.closedFlag = true := by
  decide

/-- C5 amended: once the running flag is cleared, the worker dequeues at
most `deqBound` further jobs — one when it already passed the loop-head
check (program point `atWait`), zero from the loop head, the in-flight
job's completion, or after exit — and `deqBound` never exceeds one; the
join-and-release half of close runs only once the worker has exited. -/
theorem c5_stop_bounded_drain :
    (∀ (M : CodecModel) (s : Sess) (labs : List Lab) (s' : Sess),
      s.running = false → runL M s labs = some s' →
      labs.count Lab.wWaitDeq ≤ deqBound s.wpc) ∧
    (∀ w : WPC, deqBound w ≤ 1) ∧
    (∀ (M : CodecModel) (s t : Sess), stepF M s .joinCleanup = some t → s.wpc = .exited) := by
  refine ⟨?_, ?_, ?_⟩
  · intro M s labs
    induction labs generalizing s with
    | nil => intro s' _ _; simp
    | cons l ls ih =>
        intro s' hr h
        simp only [runL] at h
        rcases hst : stepF M s l with _ | v <;> rw [hst] at h
        · cases h
        · have hvr : v.running = false := stepF_running_false hst hr
          have hrec := ih v s' hvr h
          rcases stepF_cases hst with
              ⟨id, hl, hc, hu⟩ | ⟨hl, hc, hu⟩ | ⟨hl, hu⟩ | ⟨hl, hu⟩ | ⟨hl, hc, hu⟩ |
              ⟨hl, hw, hrn, hu⟩ | ⟨hl, hw, hrn, hu⟩ | ⟨hl, hw, hrn, hq, hu⟩ |
              ⟨j, rest, hl, hq, hw, hu⟩ | ⟨id, hl, hw, hcoS, hu⟩ | ⟨id, hl, hw, hcoS, hu⟩ |
              ⟨hl, hw, hcoS, hu⟩ | ⟨hl, hw, hcoS, hu⟩
          · subst hl hu; simpa [List.count_cons] using hrec
          · subst hl hu; simpa [List.count_cons] using hrec
          · subst hl hu; simpa [List.count_cons] using hrec
          · subst hl hu; simpa [List.count_cons] using hrec
          · subst hl hu; simpa [List.count_cons] using hrec
          · rw [hrn] at hr; cases hr
          · subst hl hu
            rw [hw]
            simp [List.count_cons, deqBound] at hrec ⊢
            omega
          · subst hl hu
            rw [hw]
            simp [List.count_cons, deqBound] at hrec ⊢
            omega
          · subst hl hu
            rw [hw]
            simp [List.count_cons, deqBound] at hrec ⊢
            omega
          · subst hl hu
            rw [hw]
            simp [List.count_cons, deqBound] at hrec ⊢
            omega
          · subst hl hu
            rw [hw]
            simp [List.count_cons, deqBound] at hrec ⊢
            omega
          · subst hl hu
            rw [hw]
            simp [List.count_cons, deqBound] at hrec ⊢
            omega
          · subst hl hu
            rw [hw]
            simp [List.count_cons, deqBound] at hrec ⊢
            omega
  · intro w; cases w <;> simp [deqBound]
  · intro M s t h
    have h' : (if s.wpc = WPC.exited then
        some { s with queue := [], codecOpen := false, configured := false,
                      closedFlag := true }
      else none) = some t := h
    by_cases hc : s.wpc = .exited
    · exact hc
    · rw [if_neg hc] at h'
      exact Option.noConfusion h'

/-- Witness for `c5_stop_bounded_drain` on the counterexample trace: the
single extra dequeue meets the bound. -/
theorem c5_stop_bounded_drain_witness :
    c5Labs2.count Lab.wWaitDeq ≤ deqBound c5MidState.wpc :=
  c5_stop_bounded_drain.1 (lkModel 0) c5MidState c5Labs2 c5EndState (by decide) (by decide)

lemma runJobs_ids {M : CodecModel}
    (hE : ∀ b id, (M.encodeF b id).2 ++ (M.encodeF b id).1 = b ++ [id])
    (hF : ∀ b, M.flushF b = ([], b)) :
    ∀ (p : List Job) (b : List Nat) (x : Nat),
      (x ∈ (runJobs M b p).1 → x ∈ b ∨ Job.enc x ∈ p) ∧
      (Out.chunk x ∈ (runJobs M b p).2 → x ∈ b ∨ Job.enc x ∈ p) := by
  intro p
  induction p with
  | nil =>
      intro b x
      simp [runJobs]
  | cons j rest ih =>
      intro b x
      cases j with
      | enc id =>
          have hsplit : ∀ y, y ∈ (M.encodeF b id).2 ∨ y ∈ (M.encodeF b id).1 →
              y ∈ b ∨ y = id := by
            intro y hy
            have : y ∈ (M.encodeF b id).2 ++ (M.encodeF b id).1 :=
              List.mem_append.mpr hy
            rw [hE b id] at this
            rcases List.mem_append.mp this with h | h
            · exact Or.inl h
            · exact Or.inr (by simpa using h)
          constructor
          · intro hx
            simp only [runJobs, stepJob] at hx
            rcases (ih (M.encodeF b id).1 x).1 hx with h | h
            · rcases hsplit x (Or.inr h) with h' | h'
              · exact Or.inl h'
              · exact Or.inr (by simp [h'])
            · exact Or.inr (List.mem_cons_of_mem _ h)
          · intro hx
            simp only [runJobs, stepJob] at hx
            rw [List.mem_append] at hx
            rcases hx with hx | hx
            · rcases List.mem_map.mp hx with ⟨y, hy, hyx⟩
              cases hyx
              rcases hsplit x (Or.inl hy) with h' | h'
              · exact Or.inl h'
              · exact Or.inr (by simp [h'])
            · rcases (ih (M.encodeF b id).1 x).2 hx with h | h
              · rcases hsplit x (Or.inr h) with h' | h'
                · exact Or.inl h'
                · exact Or.inr (by simp [h'])
              · exact Or.inr (List.mem_cons_of_mem _ h)
      | flushJob =>
          constructor
          · intro hx
            simp only [runJobs, stepJob, hF] at hx
            rcases (ih [] x).1 hx with h | h
            · cases h
            · exact Or.inr (List.mem_cons_of_mem _ h)
          · intro hx
            simp only [runJobs, stepJob, hF] at hx
            rw [List.mem_append, List.mem_append] at hx
            rcases hx with (hx | hx) | hx
            · rcases List.mem_map.mp hx with ⟨y, hy, hyx⟩
              cases hyx
              exact Or.inl hy
            · simp at hx
            · rcases (ih [] x).2 hx with h | h
              · cases h
              · exact Or.inr (List.mem_cons_of_mem _ h)

lemma avoids_step {M : CodecModel} {J : Nat} {s t : Sess} {l : Lab}
    (hE : ∀ b id, (M.encodeF b id).2 ++ (M.encodeF b id).1 = b ++ [id])
    (hF : ∀ b, M.flushF b = ([], b))
    (h : stepF M s l = some t) (hl : l ≠ Lab.submit J) (hA : AvoidsJ J s) :
    AvoidsJ J t := by
  obtain ⟨hD, hB, hQ, hW⟩ := hA
  rcases stepF_cases h with
      ⟨id, hlab, hc, hu⟩ | ⟨hlab, hc, hu⟩ | ⟨hlab, hu⟩ | ⟨hlab, hu⟩ | ⟨hlab, hc, hu⟩ |
      ⟨hlab, hw, hrn, hu⟩ | ⟨hlab, hw, hrn, hu⟩ | ⟨hlab, hw, hrn, hq, hu⟩ |
      ⟨j, rest, hlab, hq, hw, hu⟩ | ⟨id, hlab, hw, hcoS, hu⟩ | ⟨id, hlab, hw, hcoS, hu⟩ |
      ⟨hlab, hw, hcoS, hu⟩ | ⟨hlab, hw, hcoS, hu⟩
  · subst hu
    have hid : id ≠ J := by
      intro hid
      exact hl (by rw [hlab, hid])
    refine ⟨hD, hB, ?_, hW⟩
    intro hmem
    rcases List.mem_append.mp hmem with hm | hm
    · exact hQ hm
    · simp at hm
      exact hid hm.symm
  · subst hu
    refine ⟨hD, hB, ?_, hW⟩
    intro hmem
    rcases List.mem_append.mp hmem with hm | hm
    · exact hQ hm
    · simp at hm
  · subst hu
    refine ⟨hD, ?_, by simp, hW⟩
    by_cases hco : s.codecOpen = true <;> simp [hco, hB]
  · subst hu
    exact ⟨hD, hB, hQ, hW⟩
  · subst hu
    exact ⟨hD, hB, by simp, hW⟩
  · subst hu
    exact ⟨hD, hB, hQ, by simp⟩
  · subst hu
    exact ⟨hD, hB, hQ, by simp⟩
  · subst hu
    exact ⟨hD, hB, hQ, by simp⟩
  · subst hu
    refine ⟨hD, hB, ?_, ?_⟩
    · intro hm
      exact hQ (by rw [hq]; exact List.mem_cons_of_mem _ hm)
    · intro hbusy
      have : j = Job.enc J := by injection hbusy
      apply hQ
      rw [hq, this]
      exact List.mem_cons_self _ _
  · -- wStep, busy (enc id), codec open
    subst hu
    have hid : id ≠ J := by
      intro hid
      exact hW (by rw [hw, hid])
    have hsplit : ∀ y, y ∈ (M.encodeF s.codecBuf id).2 ∨ y ∈ (M.encodeF s.codecBuf id).1 →
        y ∈ s.codecBuf ∨ y = id := by
      intro y hy
      have hmem : y ∈ (M.encodeF s.codecBuf id).2 ++ (M.encodeF s.codecBuf id).1 :=
        List.mem_append.mpr hy
      rw [hE s.codecBuf id] at hmem
      rcases List.mem_append.mp hmem with hm | hm
      · exact Or.inl hm
      · exact Or.inr (by simpa using hm)
    refine ⟨?_, ?_, hQ, by simp⟩
    · intro hmem
      rcases List.mem_append.mp hmem with hm | hm
      · exact hD hm
      · rcases List.mem_map.mp hm with ⟨y, hy, hyx⟩
        have hyJ : y = J := by injection hyx
        subst hyJ
        rcases hsplit y (Or.inl hy) with h' | h'
        · exact hB h'
        · exact hid h'.symm
    · intro hmem
      rcases hsplit J (Or.inr hmem) with h' | h'
      · exact hB h'
      · exact hid h'.symm
  · subst hu
    exact ⟨hD, hB, hQ, by simp⟩
  · -- wStep, flush, codec open
    subst hu
    refine ⟨?_, by simp [hF], hQ, by simp⟩
    intro hmem
    rcases List.mem_append.mp hmem with hm | hm
    · rcases List.mem_append.mp hm with hm' | hm'
      · exact hD hm'
      · rcases List.mem_map.mp hm' with ⟨y, hy, hyx⟩
        have hyJ : y = J := by injection hyx
        subst hyJ
        rw [hF s.codecBuf] at hy
        exact hB hy
    · simp at hm
  · subst hu
    exact ⟨hD, hB, hQ, by simp⟩

lemma avoids_runL {M : CodecModel} {J : Nat} {s u : Sess} {labs : List Lab}
    (hE : ∀ b id, (M.encodeF b id).2 ++ (M.encodeF b id).1 = b ++ [id])
    (hF : ∀ b, M.flushF b = ([], b))
    (hall : ∀ l ∈ labs, l ≠ Lab.submit J)
    (hA : AvoidsJ J s) (h : runL M s labs = some u) : AvoidsJ J u := by
  induction labs generalizing s with
  | nil => simp only [runL] at h; cases h; exact hA
  | cons l ls ih =>
      simp only [runL] at h
      rcases hst : stepF M s l with _ | v <;> rw [hst] at h
      · cases h
      · exact ih (fun x hx => hall x (by simp [hx]))
          (avoids_step hE hF hst (hall l (by simp)) hA) h

/-- C6: `reset` synchronously empties the queue and instructs the codec
to drop its buffered state (`avcodec_flush_buffers`) without stopping
the worker, touching the in-flight job, or disturbing already delivered
results; the in-flight encode still completes and delivers normally; a
job that sat in the queue at reset time (its id submitted once, never
resubmitted) never yields a chunk in any continuation; and jobs
submitted after `reset` are processed exactly as the codec fold
prescribes. -/
theorem c6_reset_semantics :
    (∀ (M : CodecModel) (s t : Sess), stepF M s Lab.resetCall = some t →
      t.queue = [] ∧ (s.codecOpen = true → t.codecBuf = []) ∧
      t.running = s.running ∧ t.wpc = s.wpc ∧ t.delivered = s.delivered ∧
      t.configured = s.configured ∧ t.processed = s.processed) ∧
    (∀ (M : CodecModel) (s₂ : Sess) (id : Nat),
      s₂.wpc = .busy (Job.enc id) → s₂.codecOpen = true →
      stepF M s₂ Lab.wStep =
        some { s₂ with codecBuf := (M.encodeF s₂.codecBuf id).1,
                       delivered := s₂.delivered
                         ++ (M.encodeF s₂.codecBuf id).2.map Out.chunk,
                       wpc := .atTop, processed := s₂.processed ++ [Job.enc id] }) ∧
    (∀ M : CodecModel,
      (∀ b id, (M.encodeF b id).2 ++ (M.encodeF b id).1 = b ++ [id]) →
      (∀ b, M.flushF b = ([], b)) →
      ∀ (pre post : List Lab) (s₁ s₂ s₃ : Sess) (J : Nat),
        (∀ l ∈ pre, l ≠ Lab.resetCall ∧ l ≠ Lab.joinCleanup) →
        runL M initSess pre = some s₁ →
        Job.enc J ∈ s₁.queue →
        s₁.submitted.count (Job.enc J) = 1 →
        stepF M s₁ Lab.resetCall = some s₂ →
        (∀ l ∈ post, l ≠ Lab.submit J) →
        runL M s₂ post = some s₃ →
        Out.chunk J ∉ s₃.delivered) ∧
    (∀ (M : CodecModel) (s₂ : Sess) (post : List Lab) (s₃ : Sess),
      s₂.codecOpen = true →
      (∀ l ∈ post, l ≠ Lab.resetCall ∧ l ≠ Lab.joinCleanup) →
      runL M s₂ post = some s₃ →
      s₃.delivered = s₂.delivered ++
        (runJobs M s₂.codecBuf (s₃.processed.drop s₂.processed.length)).2) := by
  refine ⟨?_, ?_, ?_, ?_⟩
  · intro M s t h
    have ht : t = { s with queue := []
                           codecBuf := if s.codecOpen then [] else s.codecBuf } :=
      (Option.some.inj h).symm
    subst ht
    refine ⟨rfl, ?_, rfl, rfl, rfl, rfl, rfl⟩
    intro hco
    simp [hco]
  · intro M s₂ id hw hco
    rw [show stepF M s₂ Lab.wStep = (match s₂.wpc with
        | .busy (.enc id) =>
            if s₂.codecOpen then
              some { s₂ with codecBuf := (M.encodeF s₂.codecBuf id).1,
                             delivered := s₂.delivered
                               ++ (M.encodeF s₂.codecBuf id).2.map Out.chunk,
                             wpc := .atTop, processed := s₂.processed ++ [Job.enc id] }
            else
              some { s₂ with wpc := .atTop, processed := s₂.processed ++ [Job.enc id] }
        | .busy .flushJob =>
            if s₂.codecOpen then
              some { s₂ with codecBuf := (M.flushF s₂.codecBuf).1,
                             delivered := s₂.delivered
                               ++ (M.flushF s₂.codecBuf).2.map Out.chunk
                               ++ [Out.flushComplete],
                             wpc := .atTop, processed := s₂.processed ++ [Job.flushJob],
                             flushPending := false }
            else
              some { s₂ with wpc := .atTop, processed := s₂.processed ++ [Job.flushJob],
                             flushPending := false }
        | _ => none) from rfl, hw]
    simp [hco]
  · intro M hE hF pre post s₁ s₂ s₃ J hpre hrun1 hmemq hcount hreset hpost hrun2
    have hTr : Tracks M initSess s₁ := runL_tracks hpre (tracks_refl rfl) hrun1
    have hO : OrderInv s₁ := runL_order hpre (by simp [OrderInv, initSess, busyList]) hrun1
    obtain ⟨hco, hlen, hbuf, hdel⟩ := hTr
    have hdel1 : s₁.delivered = (runJobs M [] s₁.processed).2 := by
      simpa [initSess] using hdel
    -- the queued job was submitted exactly once, so it is neither
    -- processed nor in flight
    have hcounts : s₁.processed.count (Job.enc J)
        + ((busyList s₁.wpc).count (Job.enc J) + s₁.queue.count (Job.enc J)) = 1 := by
      rw [OrderInv] at hO
      rw [← hO] at hcount
      simpa [List.count_append] using hcount
    have hq1 : 0 < s₁.queue.count (Job.enc J) := List.count_pos_iff.mpr hmemq
    have hproc0 : s₁.processed.count (Job.enc J) = 0 := by omega
    have hbusy0 : (busyList s₁.wpc).count (Job.enc J) = 0 := by omega
    have hprocJ : Job.enc J ∉ s₁.processed := by
      intro hm
      have := List.count_pos_iff.mpr hm
      omega
    have hbusyJ : s₁.wpc ≠ .busy (Job.enc J) := by
      intro hwq
      rw [hwq] at hbusy0
      simp [busyList] at hbusy0
    have hDnot : Out.chunk J ∉ s₁.delivered := by
      intro hm
      rw [hdel1] at hm
      rcases (runJobs_ids hE hF s₁.processed [] J).2 hm with h | h
      · cases h
      · exact hprocJ h
    have hs2 : s₂ = { s₁ with queue := []
                              codecBuf := if s₁.codecOpen then [] else s₁.codecBuf } :=
      (Option.some.inj hreset).symm
    have hA2 : AvoidsJ J s₂ := by
      rw [hs2]
      refine ⟨hDnot, ?_, by simp, hbusyJ⟩
      show J ∉ (if s₁.codecOpen = true then [] else s₁.codecBuf)
      rw [if_pos hco]
      simp
    have hA3 := avoids_runL hE hF hpost hA2 hrun2
    exact hA3.1
  · intro M s₂ post s₃ hco hpost hrun
    have hTr : Tracks M s₂ s₃ := runL_tracks hpost (tracks_refl hco) hrun
    exact hTr.2.2.2

/-- Witness for `c6_reset_semantics`: the discarded job 3 never delivers
a chunk, while the post-reset job 9 is processed normally. -/
theorem c6_reset_semantics_witness : Out.chunk 3 ∉ c6End.delivered :=
  c6_reset_semantics.2.2.1 (lkModel 0) (lkModel_conserving 0) (lkModel_flush 0)
    c6Pre c6Post c6S1 c6S2 c6End 3
    (by decide) (by decide) (by decide) (by decide) (by decide) (by decide) (by decide)

/-- C7: after a completed `close` (stop signal, worker wind-down, join
and release), closing again is enabled and leaves the state bit-for-bit
unchanged (no error), the session is in the terminal closed state, and
every subsequent `Encode` fails synchronously with the not-configured
error, enqueuing nothing. -/
theorem c7_close_idempotent :
    ∀ (M : CodecModel) (s : Sess) (ws : List Lab) (t : Sess),
      runL M s (Lab.stopSignal :: ws ++ [Lab.joinCleanup]) = some t →
      runL M t [Lab.stopSignal, Lab.joinCleanup] = some t ∧
      t.closedFlag = true ∧ t.configured = false ∧ t.queue = [] ∧
      t.wpc = .exited ∧ t.codecOpen = false ∧
      (∀ id, encodeApi t id = Except.error "Encoder not configured") := by
  intro M s ws t hrun
  simp only [List.cons_append, runL] at hrun
  rw [show stepF M s Lab.stopSignal = some { s with running := false } from rfl] at hrun
  have hrun2 : runL M { s with running := false } (ws ++ [Lab.joinCleanup]) = some t := hrun
  rw [runL_append] at hrun2
  rcases hmid : runL M { s with running := false } ws with _ | u <;> rw [hmid] at hrun2
  · cases hrun2
  · simp only [Option.some_bind, runL] at hrun2
    rcases hj : stepF M u Lab.joinCleanup with _ | v <;> rw [hj] at hrun2
    · cases hrun2
    · simp only [runL] at hrun2
      have hvt : v = t := Option.some.inj hrun2
      have h' : (if u.wpc = WPC.exited then
          some { u with queue := [], codecOpen := false, configured := false,
                        closedFlag := true }
        else none) = some v := hj
      by_cases hw : u.wpc = .exited
      · rw [if_pos hw] at h'
        have hur : u.running = false :=
          runL_running_false (show ({ s with running := false } : Sess).running = false from rfl)
            hmid
        have ht : t = { u with queue := [], codecOpen := false, configured := false,
                               closedFlag := true } := by
          rw [← hvt, ← Option.some.inj h']
        obtain ⟨uq, ur, uc, ucf, uco, ub, ud, ufp, uw, up, us⟩ := u
        simp only at hur hw
        subst hur hw
        subst ht
        refine ⟨?_, rfl, rfl, rfl, rfl, rfl, ?_⟩
        · simp [runL, stepF]
        · intro id
          simp [encodeApi]
      · rw [if_neg hw] at h'
        exact Option.noConfusion h'

/-- Witness for `c7_close_idempotent`: close `initSess` (worker exits
via the loop-head check), then close again. -/
theorem c7_close_idempotent_witness :
    runL (lkModel 0) c7End [Lab.stopSignal, Lab.joinCleanup] = some c7End ∧
    c7End.closedFlag = true ∧
    encodeApi c7End 7 = Except.error "Encoder not configured" := by
  have h := c7_close_idempotent (lkModel 0) initSess [Lab.wTopExit] c7End (by decide)
  exact ⟨h.1, h.2.1, h.2.2.2.2.2.2 7⟩

/-- C10: calling `flush` on a session that is not configured (never
configured, or closed) succeeds, enqueues nothing, leaves the state
unchanged, and invokes the supplied completion callback synchronously
exactly once with a null argument — for the encoder and the decoder
alike. -/
theorem c10_flush_unconfigured :
    (∀ s : Sess, s.configured = false → flushApi s = (s, [CbArg.nullArg])) ∧
    (∀ d : DecSess, d.configured = false → flushApiDec d = (d, [CbArg.nullArg])) := by
  constructor
  · intro s hc
    simp [flushApi, hc]
  · intro d hc
    simp [flushApiDec, hc]

/-- Witness for `c10_flush_unconfigured` at concrete unconfigured
encoder and decoder sessions. -/
theorem c10_flush_unconfigured_witness :
    flushApi c10State = (c10State, [CbArg.nullArg]) ∧
    flushApiDec ⟨false, []⟩ = (⟨false, []⟩, [CbArg.nullArg]) :=
  ⟨c10_flush_unconfigured.1 c10State rfl, c10_flush_unconfigured.2 ⟨false, []⟩ rfl⟩

end WebCodecs
